import Mathlib

/-!
Verification of the identity / persistence / ledger-lifecycle core of the
Kanakkuvazhakku personal finance tracker, shallowly embedded from the
TypeScript sources (`contexts/DataContext.tsx`, `utils/security.ts`,
`types.ts`).  Machine dates follow the UTC interpretation of the JavaScript
`Date` operations used by the code (`new Date("YYYY-MM-DD")`, `setMonth`,
`setFullYear`, `toISOString().split('T')[0]`).
-/

namespace Kanakku

/-! ## Data model (`types.ts`) -/

inductive Category where
  | Food | Transport | Entertainment | Utilities
  | Healthcare | Shopping | Housing | Other
deriving DecidableEq, Repr

inductive IncomeCategory where
  | Salary | Rent | Interest | Business | Gift | Other
deriving DecidableEq, Repr

inductive Recurrence where
  | None | Monthly | Yearly
deriving DecidableEq, Repr

inductive IncomeStatus where
  | Expected | Received | Overdue
deriving DecidableEq, Repr

inductive PaymentMethod where
  | Cash | Card | UPI | Other
deriving DecidableEq, Repr

structure Expense where
  id : String
  amount : Int
  category : Category
  description : String
  date : String
  paymentMethod : PaymentMethod
  createdAt : Nat
deriving DecidableEq, Repr

structure Income where
  id : String
  amount : Int
  category : IncomeCategory
  source : String
  date : String
  recurrence : Recurrence
  status : IncomeStatus
  tenantContact : Option String
  createdAt : Nat
deriving DecidableEq, Repr

structure Budget where
  category : Category
  limit : Int
deriving DecidableEq, Repr

structure UserProfile where
  id : String
  name : String
  mobile : String
  email : String
  language : String
  currency : String
  password : Option String
  profilePicture : Option String
  biometricEnabled : Option Bool
  biometricCredentialId : Option String
deriving DecidableEq, Repr

structure ChatMessage where
  id : String
  role : String
  text : String
  timestamp : Nat
deriving DecidableEq, Repr

/-! ## Calendar dates

The code stores dates as ISO `YYYY-MM-DD` strings and compares them with the
JavaScript string order (lexicographic, which coincides with chronological
order for ISO dates).  `markIncomeReceived` parses the string with
`new Date(...)`, advances it with `setMonth`/`setFullYear` and re-renders it
with `toISOString().split('T')[0]`; we model those operations on a
year/month/day triple (month 1–12). -/

structure Ymd where
  y : Nat
  m : Nat
  d : Nat
deriving DecidableEq, Repr

def isLeapYear (y : Nat) : Bool :=
  (y % 4 = 0 && y % 100 ≠ 0) || y % 400 = 0

def daysInMonth (y m : Nat) : Nat :=
  if m = 2 then (if isLeapYear y then 29 else 28)
  else if m = 4 || m = 6 || m = 9 || m = 11 then 30
  else 31

/-- Normalize a triple whose day may exceed the month length, as the
JavaScript `Date` day-number representation does (`setMonth` on Jan 31
overflows into March).  A single overflow step suffices because the day
excess after a one-month or one-year shift is at most 3. -/
def normalizeYmd (x : Ymd) : Ymd :=
  if x.d ≤ daysInMonth x.y x.m then x
  else if x.m = 12 then ⟨x.y + 1, 1, x.d - daysInMonth x.y 12⟩
  else ⟨x.y, x.m + 1, x.d - daysInMonth x.y x.m⟩

/-- `d.setMonth(d.getMonth() + 1)` on a UTC-midnight date. -/
def jsAddMonth (x : Ymd) : Ymd :=
  if x.m = 12 then normalizeYmd ⟨x.y + 1, 1, x.d⟩
  else normalizeYmd ⟨x.y, x.m + 1, x.d⟩

/-- `d.setFullYear(d.getFullYear() + 1)` on a UTC-midnight date. -/
def jsAddYear (x : Ymd) : Ymd :=
  normalizeYmd ⟨x.y + 1, x.m, x.d⟩

def digitChar (n : Nat) : Char := Char.ofNat (48 + n)

def pad2 (n : Nat) : List Char :=
  [digitChar (n / 10 % 10), digitChar (n % 10)]

def pad4 (n : Nat) : List Char :=
  [digitChar (n / 1000 % 10), digitChar (n / 100 % 10),
   digitChar (n / 10 % 10), digitChar (n % 10)]

/-- `date.toISOString().split('T')[0]` for a UTC-midnight date with a
four-digit year. -/
def ymdToIso (x : Ymd) : String :=
  String.mk (pad4 x.y ++ ('-' :: pad2 x.m) ++ ('-' :: pad2 x.d))

def digitVal (c : Char) : Nat := c.toNat - 48

/-- `new Date(s)` on an ISO `YYYY-MM-DD` string (UTC): accepted only when the
components form a real calendar date, otherwise an Invalid Date. -/
def jsParseDate (s : String) : Option Ymd :=
  match s.data with
  | [y1, y2, y3, y4, h1, m1, m2, h2, d1, d2] =>
    if [y1, y2, y3, y4, m1, m2, d1, d2].all Char.isDigit
        && h1 = '-' && h2 = '-' then
      let y := 1000 * digitVal y1 + 100 * digitVal y2 + 10 * digitVal y3 + digitVal y4
      let m := 10 * digitVal m1 + digitVal m2
      let d := 10 * digitVal d1 + digitVal d2
      if 1 ≤ m && m ≤ 12 && 1 ≤ d && d ≤ daysInMonth y m then
        some ⟨y, m, d⟩
      else none
    else none
  | _ => none

/-! ## LedgerStore / IncomeLifecycle (`contexts/DataContext.tsx`) -/

/-- The caller-supplied part of an income record: `Omit<Income, 'id' |
'createdAt' | 'status'>` — a caller cannot supply a status. -/
structure IncomeInput where
  amount : Int
  category : IncomeCategory
  source : String
  date : String
  recurrence : Recurrence
  tenantContact : Option String
deriving DecidableEq, Repr

/-- `addIncome` (`DataContext.tsx` lines 224–233).  `freshId` stands for
`crypto.randomUUID()`, `now` for `Date.now()` and `today` for
`new Date().toISOString().split('T')[0]`. -/
def addIncome (freshId : String) (now : Nat) (today : String)
    (input : IncomeInput) (prev : List Income) : List Income :=
  { id := freshId
    amount := input.amount
    category := input.category
    source := input.source
    date := input.date
    recurrence := input.recurrence
    status := if input.date < today then .Overdue else .Expected
    tenantContact := input.tenantContact
    createdAt := now } :: prev

/-- `markIncomeReceived` (`DataContext.tsx` lines 239–275).  `none` models a
thrown exception (`toISOString` on an Invalid Date, reachable only when a
recurring income has an unparseable date). -/
def markIncomeReceived (freshId : String) (now : Nat) (today : String)
    (id : String) (prev : List Income) : Option (List Income) :=
  match prev.find? (fun i => i.id = id) with
  | none => some prev
  | some income =>
    let updatedIncome := { income with status := .Received, date := today }
    let others := prev.filter (fun i => i.id ≠ id)
    if income.recurrence = .None then
      some (updatedIncome :: others)
    else
      match jsParseDate income.date with
      | none => none
      | some cur =>
        let nextDate := if income.recurrence = .Monthly then jsAddMonth cur
                        else jsAddYear cur
        let nextIncome := { income with
          id := freshId
          date := ymdToIso nextDate
          status := .Expected
          createdAt := now }
        some (nextIncome :: updatedIncome :: others)

/-- The per-record overdue reconciliation done in the load `useEffect`
(`DataContext.tsx` lines 123–129). -/
def reconcileOne (today : String) (inc : Income) : Income :=
  if inc.status = .Expected && inc.date < today then
    { inc with status := .Overdue }
  else inc

def reconcileIncomes (today : String) (l : List Income) : List Income :=
  l.map (reconcileOne today)

/-- The `hasChanges` flag computed during the same pass: the change is
persisted back to `localStorage` exactly when it is `true`. -/
def reconcileChanged (today : String) (l : List Income) : Bool :=
  l.any (fun inc => inc.status = .Expected && inc.date < today)

/-- Loading the stored incomes: reconcile and report whether the reconciled
list was written back (`DataContext.tsx` lines 118–136). -/
def loadIncomes (today : String) (stored : List Income) :
    List Income × Bool :=
  (reconcileIncomes today stored, reconcileChanged today stored)

/-! ## CredentialStore / AuthSession (`contexts/DataContext.tsx`)

The identity map (`kanakku_identity_map`) is a JavaScript object mapping
identifiers to user ids; we model it as an association list with
JavaScript-object key semantics (assigning to an existing key keeps its
position, assigning to a new key appends).  The encrypted profiles slot
(`kanakku_profiles_encrypted`) is modelled at the decoded level:
`none` = slot absent, `some none` = present but `decryptData` returns
`null`, `some (some m)` = decrypts to a user-id → profile map. -/

def alookup (m : List (String × String)) (k : String) : Option String :=
  (m.find? (fun p => p.1 = k)).map (fun p => p.2)

def aset (m : List (String × String)) (k v : String) :
    List (String × String) :=
  if (m.find? (fun p => p.1 = k)).isSome then
    m.map (fun p => if p.1 = k then (k, v) else p)
  else m ++ [(k, v)]

def plookup (m : List (String × UserProfile)) (k : String) :
    Option UserProfile :=
  (m.find? (fun p => p.1 = k)).map (fun p => p.2)

def pset (m : List (String × UserProfile)) (k : String) (v : UserProfile) :
    List (String × UserProfile) :=
  if (m.find? (fun p => p.1 = k)).isSome then
    m.map (fun p => if p.1 = k then (k, v) else p)
  else m ++ [(k, v)]

/-- JavaScript truthiness of `map[key]` for a string-valued map: the key is
present and its value is a non-empty string. -/
def jsTruthyStr (o : Option String) : Bool :=
  match o with
  | some s => s ≠ ""
  | none => false

/-- JavaScript `a || b` on an optional string. -/
def jsOr (o : Option String) (d : String) : String :=
  match o with
  | some s => if s = "" then d else s
  | none => d

structure AppState where
  expenses : List Expense
  incomes : List Income
  budgets : List Budget
  userProfile : Option UserProfile
  isAuthenticated : Bool
  isOnboardingComplete : Bool
  loginIdentifier : String
  authError : String
  chatHistory : List ChatMessage
  sessionAuth : Option String
  currentUserId : Option String
  identityMap : List (String × String)
  profilesSlot : Option (Option (List (String × UserProfile)))
  storedExpenses : List Expense
  storedIncomes : List Income
  storedBudgets : List Budget
deriving DecidableEq, Repr

/-- `startSignup` (`DataContext.tsx` lines 360–377). -/
def startSignup (identifier : String) (st : AppState) : Bool × AppState :=
  let st1 := { st with authError := "" }
  if jsTruthyStr (alookup st1.identityMap identifier) then
    (false, st1)
  else
    (true, { st1 with
      loginIdentifier := identifier
      userProfile := none
      isOnboardingComplete := false
      isAuthenticated := true
      sessionAuth := some "true"
      currentUserId := none })

/-- `login` (`DataContext.tsx` lines 325–358).  The outer `none` models the
uncaught `TypeError` raised by `profiles[existingUserId]` when the profiles
slot is present but `decryptData` returns `null`. -/
def login (identifier : String) (password : Option String) (st : AppState) :
    Option (Bool × AppState) :=
  let st1 := { st with authError := "", loginIdentifier := identifier }
  match alookup st1.identityMap identifier with
  | some uid =>
    if uid = "" then some (false, { st1 with authError := "User not found" })
    else
      match st1.profilesSlot with
      | none => some (false, { st1 with authError := "User not found" })
      | some none => none
      | some (some profiles) =>
        match plookup profiles uid with
        | some profile =>
          if profile.password == password then
            some (true, { st1 with
              userProfile := some profile
              isOnboardingComplete := true
              isAuthenticated := true
              sessionAuth := some "true"
              currentUserId := some uid })
          else
            some (false, { st1 with authError := "Invalid credentials" })
        | none => some (false, { st1 with authError := "User not found" })
  | none => some (false, { st1 with authError := "User not found" })

/-- `logout` (`DataContext.tsx` lines 417–424). -/
def logout (st : AppState) : AppState :=
  { st with
    isAuthenticated := false
    isOnboardingComplete := false
    userProfile := none
    sessionAuth := none
    currentUserId := none
    chatHistory := [] }

/-- The identifier-binding fragment of `completeOnboarding`
(`DataContext.tsx` lines 398–408): `mobile` and `email` are the new
profile's (already defaulted) fields, bound unconditionally when non-empty;
the signup `loginIdentifier` is bound only when not already mapped to a
truthy user id. -/
def completeOnboardingBind (newUserId mobile email loginIdentifier : String)
    (m : List (String × String)) : List (String × String) :=
  let m1 := if mobile ≠ "" then aset m mobile newUserId else m
  let m2 := if email ≠ "" then aset m1 email newUserId else m1
  if loginIdentifier ≠ "" && !jsTruthyStr (alookup m2 loginIdentifier) then
    aset m2 loginIdentifier newUserId
  else m2

structure OnboardingDetails where
  name : Option String
  mobile : Option String
  email : Option String
  language : Option String
  currency : Option String
  password : Option String
deriving DecidableEq, Repr

/-- `completeOnboarding` (`DataContext.tsx` lines 379–415).  `newUserId`
stands for `crypto.randomUUID()`; `none` models the `TypeError` thrown when
the profiles slot is present but `decryptData` returns `null`. -/
def completeOnboarding (newUserId : String) (details : OnboardingDetails)
    (st : AppState) : Option AppState :=
  let newProfile : UserProfile :=
    { id := newUserId
      name := jsOr details.name "User"
      email := jsOr details.email ""
      mobile := jsOr details.mobile ""
      language := jsOr details.language "en"
      currency := jsOr details.currency "₹"
      password := some (jsOr details.password "")
      profilePicture := none
      biometricEnabled := none
      biometricCredentialId := none }
  match st.profilesSlot with
  | some none => none
  | other =>
    let profiles := match other with
      | some (some m) => m
      | _ => []
    some { st with
      profilesSlot := some (some (pset profiles newUserId newProfile))
      identityMap := completeOnboardingBind newUserId newProfile.mobile
        newProfile.email st.loginIdentifier st.identityMap
      currentUserId := some newUserId
      userProfile := some newProfile
      isAuthenticated := true
      sessionAuth := some "true"
      isOnboardingComplete := true }

/-- The identifier-binding fragment of `restoreUserFromBackup`
(`DataContext.tsx` lines 671–674): the restored profile's mobile and email
are bound unconditionally (when truthy) to the restored profile's id. -/
def restoreBind (restoredId restoredMobile restoredEmail : String)
    (m : List (String × String)) : List (String × String) :=
  let m1 := if restoredMobile ≠ "" then aset m restoredMobile restoredId else m
  if restoredEmail ≠ "" then aset m1 restoredEmail restoredId else m1

/-! ## JSON values (`JSON.stringify` / `JSON.parse`)

The cipher codec serializes with `JSON.stringify` and parses with
`JSON.parse`.  We embed the JSON value domain with exact integers as the
number type (the IEEE-double behaviour of extreme JavaScript numbers is
outside the model) and give the canonical printer and a recursive-descent
parser for it. -/

inductive Json where
  | null
  | bool (b : Bool)
  | num (n : Int)
  | str (s : String)
  | arr (l : List Json)
  | obj (l : List (String × Json))

/-- Little-endian decimal digits of a positive number. -/
def natToDigitsRev (n : Nat) : List Char :=
  if n = 0 then []
  else digitChar (n % 10) :: natToDigitsRev (n / 10)
decreasing_by exact Nat.div_lt_self (Nat.pos_of_ne_zero (by assumption)) (by norm_num)

def natPrint (n : Nat) : List Char :=
  if n = 0 then ['0'] else (natToDigitsRev n).reverse

def intPrint (n : Int) : List Char :=
  if n < 0 then '-' :: natPrint n.natAbs else natPrint n.natAbs

def hexChar (n : Nat) : Char :=
  if n < 10 then digitChar n else Char.ofNat (87 + n)

/-- `JSON.stringify` string-character escaping. -/
def escChar (c : Char) : List Char :=
  if c = '"' then ['\\', '"']
  else if c = '\\' then ['\\', '\\']
  else if c = Char.ofNat 8 then ['\\', 'b']
  else if c = Char.ofNat 9 then ['\\', 't']
  else if c = Char.ofNat 10 then ['\\', 'n']
  else if c = Char.ofNat 12 then ['\\', 'f']
  else if c = Char.ofNat 13 then ['\\', 'r']
  else if c.toNat < 32 then
    ['\\', 'u', '0', '0', hexChar (c.toNat / 16), hexChar (c.toNat % 16)]
  else [c]

def escString : List Char → List Char
  | [] => []
  | c :: r => escChar c ++ escString r

mutual

def stringifyVal : Json → List Char
  | .num n => intPrint n
  | .str s => '"' :: (escString s.data ++ ['"'])
  | .arr l => '[' :: (stringifyArr l ++ [']'])
  | .obj l => '{' :: (stringifyObj l ++ ['}'])
  | .null => 'n' :: ['u', 'l', 'l']
  | .bool true => 't' :: ['r', 'u', 'e']
  | .bool false => 'f' :: ['a', 'l', 's', 'e']

def stringifyArr : List Json → List Char
  | [] => []
  | [v] => stringifyVal v
  | v :: rest => stringifyVal v ++ ',' :: stringifyArr rest

def stringifyObj : List (String × Json) → List Char
  | [] => []
  | [(k, v)] => '"' :: (escString k.data ++ '"' :: ':' :: stringifyVal v)
  | (k, v) :: rest =>
    ('"' :: (escString k.data ++ '"' :: ':' :: stringifyVal v)) ++
      ',' :: stringifyObj rest

end

def stringify (v : Json) : String := String.mk (stringifyVal v)

def isWs (c : Char) : Bool :=
  c = ' ' || c = '\t' || c = '\n' || c = '\r'

def skipWs : List Char → List Char
  | [] => []
  | c :: r => if isWs c then skipWs r else c :: r

def hexValOf (c : Char) : Option Nat :=
  if '0' ≤ c && c ≤ '9' then some (c.toNat - 48)
  else if 'a' ≤ c && c ≤ 'f' then some (c.toNat - 87)
  else if 'A' ≤ c && c ≤ 'F' then some (c.toNat - 55)
  else none

/-- Parse the body of a JSON string literal (after the opening quote),
returning its characters and the input after the closing quote. -/
def parseStrBody : List Char → Option (List Char × List Char)
  | [] => none
  | c :: r =>
    if c = '"' then some ([], r)
    else if c = '\\' then
      match r with
      | [] => none
      | e :: r2 =>
        if e = '"' then (parseStrBody r2).map (fun p => ('"' :: p.1, p.2))
        else if e = '\\' then (parseStrBody r2).map (fun p => ('\\' :: p.1, p.2))
        else if e = '/' then (parseStrBody r2).map (fun p => ('/' :: p.1, p.2))
        else if e = 'b' then
          (parseStrBody r2).map (fun p => (Char.ofNat 8 :: p.1, p.2))
        else if e = 'f' then
          (parseStrBody r2).map (fun p => (Char.ofNat 12 :: p.1, p.2))
        else if e = 'n' then
          (parseStrBody r2).map (fun p => (Char.ofNat 10 :: p.1, p.2))
        else if e = 'r' then
          (parseStrBody r2).map (fun p => (Char.ofNat 13 :: p.1, p.2))
        else if e = 't' then
          (parseStrBody r2).map (fun p => (Char.ofNat 9 :: p.1, p.2))
        else if e = 'u' then
          match r2 with
          | h1 :: h2 :: h3 :: h4 :: r3 =>
            match hexValOf h1, hexValOf h2, hexValOf h3, hexValOf h4 with
            | some v1, some v2, some v3, some v4 =>
              let n := 4096 * v1 + 256 * v2 + 16 * v3 + v4
              if n.isValidChar then
                (parseStrBody r3).map (fun p => (Char.ofNat n :: p.1, p.2))
              else none
            | _, _, _, _ => none
          | _ => none
        else none
    else if c.toNat < 32 then none
    else (parseStrBody r).map (fun p => (c :: p.1, p.2))

def parseDigitsAcc : List Char → Nat → Nat × List Char
  | [], acc => (acc, [])
  | c :: r, acc =>
    if c.isDigit then parseDigitsAcc r (10 * acc + (c.toNat - 48))
    else (acc, c :: r)

def expectChars : List Char → List Char → Option (List Char)
  | [], s => some s
  | c :: r, s =>
    match s with
    | c2 :: s2 => if c2 = c then expectChars r s2 else none
    | [] => none

mutual

def parseVal : Nat → List Char → Option (Json × List Char)
  | 0, _ => none
  | fuel + 1, s =>
    match skipWs s with
    | [] => none
    | c :: r =>
      if c.isDigit then
        let p := parseDigitsAcc (c :: r) 0
        some (.num (p.1 : Int), p.2)
      else if c = '-' then
        match r with
        | c2 :: r2 =>
          if c2.isDigit then
            let p := parseDigitsAcc (c2 :: r2) 0
            some (.num (-(p.1 : Int)), p.2)
          else none
        | [] => none
      else if c = '"' then
        (parseStrBody r).map (fun p => (.str (String.mk p.1), p.2))
      else if c = '[' then
        match skipWs r with
        | [] => none
        | c2 :: r2 =>
          if c2 = ']' then some (.arr [], r2)
          else (parseArrItems fuel (c2 :: r2)).map (fun p => (.arr p.1, p.2))
      else if c = '{' then
        match skipWs r with
        | [] => none
        | c2 :: r2 =>
          if c2 = '}' then some (.obj [], r2)
          else (parseObjItems fuel (c2 :: r2)).map (fun p => (.obj p.1, p.2))
      else if c = 'n' then
        (expectChars ['u', 'l', 'l'] r).map (fun r2 => (.null, r2))
      else if c = 't' then
        (expectChars ['r', 'u', 'e'] r).map (fun r2 => (.bool true, r2))
      else if c = 'f' then
        (expectChars ['a', 'l', 's', 'e'] r).map (fun r2 => (.bool false, r2))
      else none

def parseArrItems : Nat → List Char → Option (List Json × List Char)
  | 0, _ => none
  | fuel + 1, s =>
    match parseVal fuel s with
    | none => none
    | some p =>
      match skipWs p.2 with
      | [] => none
      | c :: r2 =>
        if c = ',' then
          (parseArrItems fuel r2).map (fun q => (p.1 :: q.1, q.2))
        else if c = ']' then some ([p.1], r2)
        else none

def parseObjItems : Nat → List Char →
    Option (List (String × Json) × List Char)
  | 0, _ => none
  | fuel + 1, s =>
    match skipWs s with
    | [] => none
    | c0 :: r =>
      if c0 = '"' then
        match parseStrBody r with
        | none => none
        | some kp =>
          match skipWs kp.2 with
          | [] => none
          | c1 :: r2 =>
            if c1 = ':' then
              match parseVal fuel r2 with
              | none => none
              | some vp =>
                match skipWs vp.2 with
                | [] => none
                | c2 :: r3 =>
                  if c2 = ',' then
                    (parseObjItems fuel r3).map
                      (fun q => ((String.mk kp.1, vp.1) :: q.1, q.2))
                  else if c2 = '}' then
                    some ([(String.mk kp.1, vp.1)], r3)
                  else none
            else none
      else none

end

/-- `JSON.parse`: parse one value and require only whitespace to remain. -/
def jsonParse (s : String) : Option Json :=
  match parseVal (s.length + 1) s.data with
  | some (v, r) => if skipWs r = [] then some v else none
  | none => none

mutual

/-- Fuel sufficient for `parseVal` on the printed form of a value. -/
def jsonFuel : Json → Nat
  | .arr l => 1 + jsonFuelArr l
  | .obj l => 1 + jsonFuelObj l
  | _ => 1

def jsonFuelArr : List Json → Nat
  | [] => 0
  | v :: rest => 1 + jsonFuel v + jsonFuelArr rest

def jsonFuelObj : List (String × Json) → Nat
  | [] => 0
  | (_, v) :: rest => 1 + jsonFuel v + jsonFuelObj rest

end

/-- The continuations a printed value is followed by inside a larger printed
value: nothing, or a separator / closing bracket. -/
def RestOk (rest : List Char) : Prop :=
  match rest with
  | [] => True
  | c :: _ => c = ',' ∨ c = ']' ∨ c = '}'

/-! ## CipherCodec (`utils/security.ts`)

`encryptData` = `btoa` ∘ byte-wise XOR with the cyclic key ∘
`TextEncoder.encode` ∘ `JSON.stringify`; `decryptData` reverses the chain
inside a `try`/`catch` that turns any failure into `null` (modelled as
`none`). -/

def utf8EncodeChar (c : Char) : List Nat :=
  let n := c.toNat
  if n < 128 then [n]
  else if n < 2048 then [192 + n / 64, 128 + n % 64]
  else if n < 65536 then [224 + n / 4096, 128 + n / 64 % 64, 128 + n % 64]
  else [240 + n / 262144, 128 + n / 4096 % 64, 128 + n / 64 % 64,
        128 + n % 64]

def utf8EncodeList : List Char → List Nat
  | [] => []
  | c :: r => utf8EncodeChar c ++ utf8EncodeList r

def utf8Encode (s : String) : List Nat := utf8EncodeList s.data

/-- Decode a two-byte UTF-8 sequence after its lead byte. -/
def utf8Two (b : Nat) (r : List Nat) : Option (Char × List Nat) :=
  match r with
  | b1 :: r1 =>
    if 128 ≤ b1 && b1 < 192 then
      let n := (b - 192) * 64 + (b1 - 128)
      if n.isValidChar then some (Char.ofNat n, r1) else none
    else none
  | [] => none

/-- Decode a three-byte UTF-8 sequence after its lead byte. -/
def utf8Three (b : Nat) (r : List Nat) : Option (Char × List Nat) :=
  match r with
  | b1 :: b2 :: r2 =>
    if (128 ≤ b1 && b1 < 192) && (128 ≤ b2 && b2 < 192) then
      let n := (b - 224) * 4096 + (b1 - 128) * 64 + (b2 - 128)
      if n.isValidChar then some (Char.ofNat n, r2) else none
    else none
  | _ => none

/-- Decode a four-byte UTF-8 sequence after its lead byte. -/
def utf8Four (b : Nat) (r : List Nat) : Option (Char × List Nat) :=
  match r with
  | b1 :: b2 :: b3 :: r3 =>
    if (128 ≤ b1 && b1 < 192) && ((128 ≤ b2 && b2 < 192) &&
        (128 ≤ b3 && b3 < 192)) then
      let n := (b - 240) * 262144 + (b1 - 128) * 4096 +
        (b2 - 128) * 64 + (b3 - 128)
      if n.isValidChar then some (Char.ofNat n, r3) else none
    else none
  | _ => none

/-- Decode one UTF-8 character from the front of a byte list. -/
def utf8DecodeStep : List Nat → Option (Char × List Nat)
  | [] => none
  | b :: r =>
    if b < 128 then some (Char.ofNat b, r)
    else if b < 192 then none
    else if b < 224 then utf8Two b r
    else if b < 240 then utf8Three b r
    else if b < 248 then utf8Four b r
    else none

def utf8DecodeGo : Nat → List Nat → Option (List Char)
  | _, [] => some []
  | 0, _ :: _ => none
  | fuel + 1, b :: r =>
    match utf8DecodeStep (b :: r) with
    | none => none
    | some p => (utf8DecodeGo fuel p.2).map (fun l => p.1 :: l)

/-- UTF-8 decoding of a whole byte list (each step consumes at least one
byte, so the list length is sufficient fuel). -/
def utf8DecodeList (l : List Nat) : Option (List Char) :=
  utf8DecodeGo l.length l

/-- `SECRET_KEY = "kanakku_offline_secret_key"` as UTF-8 bytes. -/
def secretKeyBytes : List Nat := utf8Encode "kanakku_offline_secret_key"

def keyByte (i : Nat) : Nat :=
  secretKeyBytes.getD (i % secretKeyBytes.length) 0

def xorFrom (i : Nat) : List Nat → List Nat
  | [] => []
  | b :: r => (b ^^^ keyByte i) :: xorFrom (i + 1) r

/-- `bytes[i] ^ keyBytes[i % keyBytes.length]` over a whole byte list. -/
def xorKey (l : List Nat) : List Nat := xorFrom 0 l

def b64Alphabet : List Char :=
  ("ABCDEFGHIJKLMNOPQRSTUVWXYZ".data ++ "abcdefghijklmnopqrstuvwxyz".data)
    ++ ("0123456789".data ++ ['+', '/'])

def b64Char (i : Nat) : Char := b64Alphabet.getD i 'A'

def b64IndexAux : List Char → Char → Option Nat
  | [], _ => none
  | a :: r, c =>
    if a = c then some 0 else (b64IndexAux r c).map (fun i => i + 1)

def b64Idx (c : Char) : Option Nat := b64IndexAux b64Alphabet c

/-- `btoa` on a byte sequence. -/
def b64EncodeList : List Nat → List Char
  | [] => []
  | [b0] => [b64Char (b0 / 4), b64Char (b0 % 4 * 16), '=', '=']
  | [b0, b1] =>
    [b64Char (b0 / 4), b64Char (b0 % 4 * 16 + b1 / 16),
     b64Char (b1 % 16 * 4), '=']
  | b0 :: b1 :: b2 :: rest =>
    b64Char (b0 / 4) :: b64Char (b0 % 4 * 16 + b1 / 16) ::
      b64Char (b1 % 16 * 4 + b2 / 64) :: b64Char (b2 % 64) ::
      b64EncodeList rest

/-- `atob`, with `none` for a malformed input. -/
def b64DecodeList : List Char → Option (List Nat)
  | [] => some []
  | c1 :: c2 :: c3 :: c4 :: rest =>
    match b64Idx c1, b64Idx c2 with
    | some i1, some i2 =>
      if rest.isEmpty && c3 = '=' && c4 = '=' then
        some [i1 * 4 + i2 / 16]
      else if rest.isEmpty && c4 = '=' then
        match b64Idx c3 with
        | some i3 => some [i1 * 4 + i2 / 16, i2 % 16 * 16 + i3 / 4]
        | none => none
      else
        match b64Idx c3, b64Idx c4 with
        | some i3, some i4 =>
          (b64DecodeList rest).map
            (fun l => (i1 * 4 + i2 / 16) :: (i2 % 16 * 16 + i3 / 4) ::
              (i3 % 4 * 64 + i4) :: l)
        | _, _ => none
    | _, _ => none
  | _ => none

/-- `encryptData` (`utils/security.ts` lines 76–103). -/
def encryptData (v : Json) : String :=
  String.mk (b64EncodeList (xorKey (utf8Encode (stringify v))))

/-- `decryptData` (`utils/security.ts` lines 105–130): every failure is
caught and becomes `null`. -/
def decryptData (s : String) : Option Json :=
  match b64DecodeList s.data with
  | none => none
  | some bytes =>
    match utf8DecodeList (xorKey bytes) with
    | none => none
    | some chars => jsonParse (String.mk chars)

/-! ## BackupCodec: `importData` (`DataContext.tsx` lines 613–651)

After an import the three React collections hold whatever JSON arrays the
file contained, so the import-level ledger state is modelled at the JSON
level. -/

/-- JavaScript property access `j[k]` on a decoded JSON value (`undefined`
for a non-object; the last duplicate key wins, as in `JSON.parse`). -/
def jGet (j : Json) (k : String) : Option Json :=
  match j with
  | .obj l => (l.reverse.find? (fun p => p.1 = k)).map (fun p => p.2)
  | _ => none

/-- JavaScript falsiness of a possibly-`undefined` JSON value. -/
def jsFalsy : Option Json → Bool
  | none => true
  | some .null => true
  | some (.bool b) => !b
  | some (.num n) => n = 0
  | some (.str s) => s = ""
  | some (.arr _) => false
  | some (.obj _) => false

/-- JavaScript strict equality `jsonValue === maybeString` between a decoded
field and an optional string (`userProfile?.id`). -/
def strictEqUser : Option Json → Option String → Bool
  | some (.str s), some t => s = t
  | none, none => true
  | _, _ => false

structure ImportState where
  expenses : List Json
  incomes : List Json
  budgets : List Json

inductive ImportResult where
  | success
  | invalidFormat
  | ownershipMismatch
deriving DecidableEq, Repr

/-- `Array.isArray(x) ? use x : keep the previous value` — the guard each
`set…` call in `importData` sits behind. -/
def jArrOr (o : Option Json) (dflt : List Json) : List Json :=
  match o with
  | some (.arr l) => l
  | _ => dflt

/-- `importData`: decode, check format, check ownership, then replace each
collection only when the corresponding payload field is an array.  The two
`throw` sites surface as the two failure outcomes. -/
def importData (content : String) (currentProfileId : Option String)
    (st : ImportState) : ImportResult × ImportState :=
  match decryptData content with
  | none => (.invalidFormat, st)
  | some j =>
    if jsFalsy (some j) || jsFalsy (jGet j "metadata") ||
        jsFalsy (jGet j "data") then
      (.invalidFormat, st)
    else if !strictEqUser ((jGet j "metadata").bind (fun md => jGet md "userId"))
        currentProfileId then
      (.ownershipMismatch, st)
    else
      let data := jGet j "data"
      (.success,
        ⟨jArrOr (data.bind (fun d => jGet d "expenses")) st.expenses,
         jArrOr (data.bind (fun d => jGet d "incomes")) st.incomes,
         jArrOr (data.bind (fun d => jGet d "budgets")) st.budgets⟩)

/-! ## Concrete sample data for witnesses and counterexamples -/

def emptyAppState : AppState where
  expenses := []
  incomes := []
  budgets := []
  userProfile := none
  isAuthenticated := false
  isOnboardingComplete := false
  loginIdentifier := ""
  authError := ""
  chatHistory := []
  sessionAuth := none
  currentUserId := none
  identityMap := []
  profilesSlot := none
  storedExpenses := []
  storedIncomes := []
  storedBudgets := []

/-- A state holding a stale auth error and one taken identifier. -/
def stTaken : AppState :=
  { emptyAppState with
    authError := "Invalid credentials"
    identityMap := [("a@b.com", "u1")] }

/-- A state where an identifier is mapped but the encrypted profiles slot is
absent from storage. -/
def stNoSlot : AppState :=
  { emptyAppState with
    identityMap := [("a@b.com", "u1")]
    profilesSlot := none }

def sampleProfile : UserProfile :=
  { id := "u1"
    name := "A"
    mobile := "111"
    email := "a@b.com"
    language := "en"
    currency := "₹"
    password := some "Passw0rd!"
    profilePicture := none
    biometricEnabled := none
    biometricCredentialId := none }

/-- A fully populated state where login can succeed. -/
def stFull : AppState :=
  { emptyAppState with
    identityMap := [("a@b.com", "u1")]
    profilesSlot := some (some [("u1", sampleProfile)]) }

/-- A recurring monthly income due 2024-01-15 (the spec's example). -/
def sampleIncome : Income :=
  { id := "i1"
    amount := 100
    category := .Rent
    source := "Tenant"
    date := "2024-01-15"
    recurrence := .Monthly
    status := .Expected
    tenantContact := some "999"
    createdAt := 1 }

/-- A backup payload owned by user "u2". -/
def payloadP1 : Json :=
  .obj [("metadata", .obj [("userId", .str "u2"), ("email", .str "x@y.com"),
          ("version", .str "1.0"), ("timestamp", .num 1)]),
        ("userProfile", .null),
        ("data", .obj [("expenses", .arr []), ("incomes", .arr []),
          ("budgets", .arr [])])]

/-- A backup payload owned by user "u1" whose `data.expenses` is not an
array. -/
def payloadP2 : Json :=
  .obj [("metadata", .obj [("userId", .str "u1")]),
        ("data", .obj [("expenses", .num 5),
          ("incomes", .arr [.bool true]), ("budgets", .arr [])])]

/-- A well-formed backup payload owned by user "u1" with array data. -/
def payloadP3 : Json :=
  .obj [("metadata", .obj [("userId", .str "u1")]),
        ("data", .obj [("expenses", .arr [.num 7]),
          ("incomes", .arr []), ("budgets", .arr [.null])])]

/-- A non-empty JSON-level ledger state. -/
def stJ : ImportState := ⟨[.null], [.num 1], [.num 2]⟩

/-- A caller-side income input used to instantiate the addIncome theorem. -/
def sampleInput : IncomeInput :=
  { amount := 50
    category := .Salary
    source := "Work"
    date := "2024-01-10"
    recurrence := .None
    tenantContact := none }

/-! ## Theorems -/

theorem alookup_nil (k : String) : alookup [] k = none := rfl

theorem alookup_cons (p : String × String) (m : List (String × String))
    (k : String) :
    alookup (p :: m) k = if p.1 = k then some p.2 else alookup m k := by
  by_cases h : p.1 = k <;> simp [alookup, List.find?_cons, h]

theorem alookup_map_set (m : List (String × String)) (k v k2 : String) :
    alookup (m.map (fun p => if p.1 = k then (k, v) else p)) k2 =
      if k2 = k ∧ (alookup m k).isSome then some v else alookup m k2 := by
  induction m with
  | nil => simp [alookup]
  | cons p m ih =>
    rw [List.map_cons, alookup_cons, alookup_cons, ih, alookup_cons]
    by_cases hp : p.1 = k
    · rw [if_pos hp, if_pos hp]
      by_cases hk : k2 = k
      · subst hk; simp
      · have h1 : ¬ ((k, v) : String × String).1 = k2 := fun h => hk (h.symm)
        simp only [h1, if_neg h1, hk, false_and, if_neg]
        have h2 : ¬ p.1 = k2 := by rw [hp]; exact fun h => hk h.symm
        simp [h2, hk]
    · rw [if_neg hp, if_neg hp]
      by_cases hk : p.1 = k2
      · rw [if_pos hk, if_pos hk]
        have h2 : ¬ k2 = k := fun h => hp (h ▸ hk)
        simp [h2]
      · rw [if_neg hk, if_neg hk]

theorem alookup_append_single (m : List (String × String)) (k v k2 : String) :
    alookup (m ++ [(k, v)]) k2 =
      if (alookup m k2).isSome then alookup m k2
      else if k = k2 then some v else none := by
  induction m with
  | nil => simp [alookup_cons, alookup_nil]
  | cons p m ih =>
    by_cases hp : p.1 = k2
    · simp [List.cons_append, alookup_cons, hp]
    · simp [List.cons_append, alookup_cons, hp, ih]

theorem alookup_find_iff (m : List (String × String)) (k : String) :
    (m.find? (fun p => p.1 = k)).isSome = (alookup m k).isSome := by
  simp [alookup]

theorem alookup_aset (m : List (String × String)) (k v k2 : String) :
    alookup (aset m k v) k2 =
      if k = k2 then some v else alookup m k2 := by
  unfold aset
  by_cases h : (m.find? (fun p => p.1 = k)).isSome
  · rw [if_pos h, alookup_map_set]
    rw [alookup_find_iff] at h
    by_cases hk : k = k2
    · subst hk; simp [h]
    · have : ¬ k2 = k := fun hx => hk hx.symm
      simp [this, hk]
  · rw [if_neg h, alookup_append_single]
    rw [alookup_find_iff] at h
    by_cases hk : k = k2
    · subst hk
      rcases hh : alookup m k with _ | w
      · simp [hh]
      · exact absurd (by simp [hh]) h
    · rcases hh : alookup m k2 with _ | w
      · simp [hh, hk]
      · simp [hh, hk]

/-- C9: logout clears the profile, the session flag, the active user id and
the chat history and returns to Unauthenticated, while leaving the three
ledger collections and their persisted slots unchanged. -/
theorem logout_clears_session_keeps_ledger (st : AppState) :
    (logout st).isAuthenticated = false ∧
    (logout st).userProfile = none ∧
    (logout st).sessionAuth = none ∧
    (logout st).currentUserId = none ∧
    (logout st).chatHistory = [] ∧
    (logout st).expenses = st.expenses ∧
    (logout st).incomes = st.incomes ∧
    (logout st).budgets = st.budgets ∧
    (logout st).storedExpenses = st.storedExpenses ∧
    (logout st).storedIncomes = st.storedIncomes ∧
    (logout st).storedBudgets = st.storedBudgets := by
  simp [logout]

/-- C10: addIncome assigns the status at creation time (Overdue iff the date
is strictly past), a fresh id and timestamp, and the invariant holds at
insertion. -/
theorem addIncome_assigns_status (freshId : String) (now : Nat)
    (today : String) (input : IncomeInput) (prev : List Income) :
    ∃ newInc : Income,
      addIncome freshId now today input prev = newInc :: prev ∧
      newInc.id = freshId ∧ newInc.createdAt = now ∧
      newInc.amount = input.amount ∧ newInc.category = input.category ∧
      newInc.source = input.source ∧ newInc.date = input.date ∧
      newInc.recurrence = input.recurrence ∧
      newInc.tenantContact = input.tenantContact ∧
      (newInc.status = .Overdue ↔ input.date < today) ∧
      (¬ input.date < today → newInc.status = .Expected) ∧
      newInc.status ≠ .Received ∧
      (freshId ∉ prev.map Income.id → (prev.map Income.id).Nodup →
        ((addIncome freshId now today input prev).map Income.id).Nodup) := by
  refine ⟨_, rfl, rfl, rfl, rfl, rfl, rfl, rfl, rfl, rfl, ?_, ?_, ?_, ?_⟩
  · by_cases h : input.date < today <;> simp [h]
  · intro h; simp [h]
  · by_cases h : input.date < today <;> simp [h]
  · intro h1 h2
    simp [addIncome, List.nodup_cons, h1, h2]

theorem reconcileOne_idem (today : String) (inc : Income) :
    reconcileOne today (reconcileOne today inc) = reconcileOne today inc := by
  unfold reconcileOne
  by_cases h : inc.status = IncomeStatus.Expected ∧ inc.date < today
  · simp [h.1, h.2]
  · split
    · next hcond =>
      rw [Bool.and_eq_true, decide_eq_true_eq, decide_eq_true_eq] at hcond
      exact absurd hcond h
    · rfl

/-- C6: loading the store flips Expected incomes with past dates to Overdue,
persists exactly when something changed, and is idempotent: a second load
changes nothing and does not persist again; Received incomes and incomes not
strictly past are untouched. -/
theorem loadIncomes_overdue_once (today : String) (stored : List Income) :
    (loadIncomes today stored).1 = stored.map (reconcileOne today) ∧
    (loadIncomes today ((loadIncomes today stored).1)).1 =
      (loadIncomes today stored).1 ∧
    (loadIncomes today ((loadIncomes today stored).1)).2 = false ∧
    ((loadIncomes today stored).2 = true ↔
      ∃ inc ∈ stored, inc.status = .Expected ∧ inc.date < today) ∧
    (∀ inc : Income, inc.status = .Expected → inc.date < today →
      reconcileOne today inc = { inc with status := .Overdue }) ∧
    (∀ inc : Income, inc.status = .Received → reconcileOne today inc = inc) ∧
    (∀ inc : Income, ¬ inc.date < today → reconcileOne today inc = inc) := by
  refine ⟨rfl, ?_, ?_, ?_, ?_, ?_, ?_⟩
  · simp only [loadIncomes, reconcileIncomes, List.map_map]
    exact List.map_congr_left (fun inc _ => reconcileOne_idem today inc)
  · simp only [loadIncomes, reconcileIncomes, reconcileChanged]
    rw [List.any_map]
    rw [List.any_eq_false]
    intro inc _
    unfold Function.comp reconcileOne
    by_cases h : inc.status = IncomeStatus.Expected ∧ inc.date < today
    · simp [h.1, h.2]
    · split
      · next hcond =>
          rw [Bool.and_eq_true, decide_eq_true_eq, decide_eq_true_eq] at hcond
          exact absurd hcond h
      · simp only [Bool.and_eq_true, decide_eq_true_eq, not_and]
        intro h1 h2
        exact h ⟨h1, h2⟩
  · simp [loadIncomes, reconcileChanged, List.any_eq_true]
  · intro inc h1 h2
    simp [reconcileOne, h1, h2]
  · intro inc h1
    simp [reconcileOne, h1]
  · intro inc h1
    simp [reconcileOne, h1]

/-- C7 counterexample: startSignup on a taken identifier returns failure but
still mutates state (it clears the auth error message first), so "no state
changes" is not literally true. -/
theorem startSignup_counterexample :
    (startSignup "a@b.com" stTaken).1 = false ∧
    (startSignup "a@b.com" stTaken).2 ≠ stTaken := by
  constructor
  · rfl
  · intro h
    have h2 := congrArg AppState.authError h
    simp [startSignup, stTaken, emptyAppState, jsTruthyStr, alookup] at h2

/-- C7 (amended): startSignup fails iff the identifier is present in the
identity map (assuming the map's user ids are non-empty, as every id the app
writes is); on failure the only change is the cleared auth error; on success
the session moves to authenticated-without-profile with the flag persisted. -/
theorem startSignup_amended (identifier : String) (st : AppState)
    (hwf : ∀ p ∈ st.identityMap, p.2 ≠ "") :
    ((startSignup identifier st).1 = false ↔
      (alookup st.identityMap identifier).isSome) ∧
    ((startSignup identifier st).1 = false →
      (startSignup identifier st).2 = { st with authError := "" }) ∧
    ((startSignup identifier st).1 = true →
      (startSignup identifier st).2 =
        { st with
          authError := ""
          loginIdentifier := identifier
          userProfile := none
          isOnboardingComplete := false
          isAuthenticated := true
          sessionAuth := some "true"
          currentUserId := none }) := by
  have hts : jsTruthyStr (alookup st.identityMap identifier) =
      (alookup st.identityMap identifier).isSome := by
    rcases hh : alookup st.identityMap identifier with _ | s
    · rfl
    · have hmem : ∃ p ∈ st.identityMap, p.1 = identifier ∧ p.2 = s := by
        simp only [alookup, Option.map_eq_some'] at hh
        rcases hh with ⟨p, hp, hps⟩
        have := List.mem_of_find?_eq_some hp
        have heq := List.find?_some hp
        simp only [decide_eq_true_eq] at heq
        exact ⟨p, this, heq, hps⟩
      rcases hmem with ⟨p, hp, hpk, hps⟩
      have hne : s ≠ "" := hps ▸ hwf p hp
      simp [jsTruthyStr, hne]
  by_cases h : jsTruthyStr (alookup st.identityMap identifier)
  · refine ⟨?_, ?_, ?_⟩
    · simp [startSignup, h, ← hts]
    · intro _; simp [startSignup, h]
    · intro hc; simp [startSignup, h] at hc
  · refine ⟨?_, ?_, ?_⟩
    · simp only [Bool.not_eq_true] at h
      simp [startSignup, h, ← hts]
    · intro hc
      simp only [Bool.not_eq_true] at h
      simp [startSignup, h] at hc
    · intro _
      simp only [Bool.not_eq_true] at h
      simp [startSignup, h]

theorem startSignup_amended_witness :
    ((startSignup "a@b.com" stTaken).1 = false ↔
      (alookup stTaken.identityMap "a@b.com").isSome) ∧
    ((startSignup "a@b.com" stTaken).1 = false →
      (startSignup "a@b.com" stTaken).2 = { stTaken with authError := "" }) ∧
    ((startSignup "a@b.com" stTaken).1 = true →
      (startSignup "a@b.com" stTaken).2 =
        { stTaken with
          authError := ""
          loginIdentifier := "a@b.com"
          userProfile := none
          isOnboardingComplete := false
          isAuthenticated := true
          sessionAuth := some "true"
          currentUserId := none }) :=
  startSignup_amended "a@b.com" stTaken (by decide)

/-- C8 counterexample: an identifier with a mapping still fails with the
"User not found" outcome when the encrypted profiles slot is absent, so
"fails UserNotFound exactly when the identifier has no mapping" is false. -/
theorem login_counterexample :
    (alookup stNoSlot.identityMap "a@b.com").isSome = true ∧
    login "a@b.com" (some "pw") stNoSlot =
      some (false, { stNoSlot with
        authError := "User not found"
        loginIdentifier := "a@b.com" }) := by
  constructor
  · rfl
  · rfl

/-- C8 (amended): login succeeds, recording the authenticated session and
active user id, exactly when the identifier maps to a non-empty user id
whose profile is present in a readable profile store and stores exactly the
supplied password; a present profile with a different password fails
InvalidCredentials; a missing mapping, missing store or missing profile
entry fails UserNotFound; an unreadable (corrupt) store throws; every tagged
failure leaves the session authentication state unchanged. -/
theorem login_amended (identifier : String) (password : Option String)
    (st : AppState) :
    (∀ uid profiles profile,
      alookup st.identityMap identifier = some uid → uid ≠ "" →
      st.profilesSlot = some (some profiles) →
      plookup profiles uid = some profile →
      (profile.password == password) = true →
      login identifier password st = some (true,
        { st with
          authError := ""
          loginIdentifier := identifier
          userProfile := some profile
          isOnboardingComplete := true
          isAuthenticated := true
          sessionAuth := some "true"
          currentUserId := some uid })) ∧
    (∀ uid profiles profile,
      alookup st.identityMap identifier = some uid → uid ≠ "" →
      st.profilesSlot = some (some profiles) →
      plookup profiles uid = some profile →
      (profile.password == password) = false →
      login identifier password st = some (false,
        { st with
          authError := "Invalid credentials"
          loginIdentifier := identifier })) ∧
    (∀ uid,
      alookup st.identityMap identifier = some uid → uid ≠ "" →
      st.profilesSlot = some none →
      login identifier password st = none) ∧
    ((alookup st.identityMap identifier = none ∨
      alookup st.identityMap identifier = some "" ∨
      (∃ uid, alookup st.identityMap identifier = some uid ∧ uid ≠ "" ∧
        st.profilesSlot = none) ∨
      (∃ uid profiles, alookup st.identityMap identifier = some uid ∧
        uid ≠ "" ∧ st.profilesSlot = some (some profiles) ∧
        plookup profiles uid = none)) →
      login identifier password st = some (false,
        { st with
          authError := "User not found"
          loginIdentifier := identifier })) ∧
    (∀ res, login identifier password st = some res → res.1 = false →
      res.2.isAuthenticated = st.isAuthenticated ∧
      res.2.userProfile = st.userProfile ∧
      res.2.sessionAuth = st.sessionAuth) := by
  refine ⟨?_, ?_, ?_, ?_, ?_⟩
  · intro uid profiles profile h1 h2 h3 h4 h5
    simp [login, h1, h2, h3, h4, h5]
  · intro uid profiles profile h1 h2 h3 h4 h5
    simp [login, h1, h2, h3, h4, h5]
  · intro uid h1 h2 h3
    simp [login, h1, h2, h3]
  · rintro (h1 | h1 | ⟨uid, h1, h2, h3⟩ | ⟨uid, profiles, h1, h2, h3, h4⟩)
    · simp [login, h1]
    · simp [login, h1]
    · simp [login, h1, h2, h3]
    · simp [login, h1, h2, h3, h4]
  · intro res hres hfail
    simp only [login] at hres
    split at hres
    · split at hres
      · injection hres with h; subst h; exact ⟨rfl, rfl, rfl⟩
      · split at hres
        · injection hres with h; subst h; exact ⟨rfl, rfl, rfl⟩
        · exact absurd hres (by simp)
        · split at hres
          · split at hres
            · injection hres with h; subst h; simp at hfail
            · injection hres with h; subst h; exact ⟨rfl, rfl, rfl⟩
          · injection hres with h; subst h; exact ⟨rfl, rfl, rfl⟩
    · injection hres with h; subst h; exact ⟨rfl, rfl, rfl⟩

theorem login_amended_witness :
    login "a@b.com" (some "Passw0rd!") stFull = some (true,
      { stFull with
        authError := ""
        loginIdentifier := "a@b.com"
        userProfile := some sampleProfile
        isOnboardingComplete := true
        isAuthenticated := true
        sessionAuth := some "true"
        currentUserId := some "u1" }) :=
  (login_amended "a@b.com" (some "Passw0rd!") stFull).1 "u1"
    [("u1", sampleProfile)] sampleProfile rfl (by decide) rfl rfl (by decide)

theorem alookup_asetIf (c : Prop) [Decidable c] (m : List (String × String))
    (key v k : String) :
    alookup (if c then aset m key v else m) k =
      if c ∧ key = k then some v else alookup m k := by
  by_cases hc : c
  · rw [if_pos hc, alookup_aset]
    by_cases hk : key = k
    · simp [hc, hk]
    · simp [hc, hk]
  · simp [hc]

theorem alookup_completeOnboardingBind (n mo em li : String)
    (m : List (String × String)) (k : String) :
    alookup (completeOnboardingBind n mo em li m) k =
      if li ≠ "" ∧ li = k ∧
          jsTruthyStr (if em ≠ "" ∧ em = li then some n
            else if mo ≠ "" ∧ mo = li then some n
            else alookup m li) = false then some n
      else if em ≠ "" ∧ em = k then some n
      else if mo ≠ "" ∧ mo = k then some n
      else alookup m k := by
  simp only [completeOnboardingBind]
  have hM2 : ∀ k2, alookup (if em ≠ "" then
        aset (if mo ≠ "" then aset m mo n else m) em n
      else (if mo ≠ "" then aset m mo n else m)) k2 =
      (if em ≠ "" ∧ em = k2 then some n
       else if mo ≠ "" ∧ mo = k2 then some n
       else alookup m k2) := by
    intro k2
    rw [alookup_asetIf, alookup_asetIf]
  by_cases hcond : (decide (li ≠ "") && !jsTruthyStr (alookup (if em ≠ "" then
        aset (if mo ≠ "" then aset m mo n else m) em n
      else (if mo ≠ "" then aset m mo n else m)) li)) = true
  · rw [if_pos hcond, alookup_aset]
    rw [Bool.and_eq_true, decide_eq_true_eq, Bool.not_eq_true'] at hcond
    rw [hM2 li] at hcond
    by_cases hk : li = k
    · rw [if_pos hk, if_pos ⟨hcond.1, hk, hcond.2⟩]
    · rw [if_neg hk, hM2 k]
      have hnot : ¬(li ≠ "" ∧ li = k ∧
          jsTruthyStr (if em ≠ "" ∧ em = li then some n
            else if mo ≠ "" ∧ mo = li then some n
            else alookup m li) = false) := fun hx => hk hx.2.1
      rw [if_neg hnot]
  · rw [if_neg hcond, hM2 k]
    rw [Bool.and_eq_true, decide_eq_true_eq, Bool.not_eq_true'] at hcond
    rw [hM2 li] at hcond
    by_cases hli : li ≠ "" ∧ li = k ∧
        jsTruthyStr (if em ≠ "" ∧ em = li then some n
          else if mo ≠ "" ∧ mo = li then some n
          else alookup m li) = false
    · exact absurd ⟨hli.1, hli.2.2⟩ hcond
    · rw [if_neg hli]

theorem alookup_restoreBind (rid rmo rem : String)
    (m2 : List (String × String)) (k : String) :
    alookup (restoreBind rid rmo rem m2) k =
      if rem ≠ "" ∧ rem = k then some rid
      else if rmo ≠ "" ∧ rmo = k then some rid
      else alookup m2 k := by
  simp only [restoreBind]
  rw [alookup_asetIf, alookup_asetIf]


/-- C4 counterexample: completing onboarding with a mobile number that is
already bound to a different user rebinds it to the new user instead of
skipping it. -/
theorem identifierBind_counterexample :
    alookup [("m1", "userA")] "m1" = some "userA" ∧
    completeOnboardingBind "userB" "m1" "" "" [("m1", "userA")] =
      [("m1", "userB")] ∧
    ("userB" : String) ≠ "userA" :=
  ⟨rfl, rfl, by decide⟩

/-- C4 (amended): the identifier-binding steps of onboarding completion and
of full-account restore never remove identifier keys, but the profile's
mobile and email are bound unconditionally — overwriting an existing binding
to a different user rather than skipping it; only the signup login
identifier is skipped when already truthily bound; all other identifiers
keep their previous binding. -/
theorem identifierBind_amended (newUserId mobile email loginId : String)
    (m : List (String × String)) (rid rmobile remail : String)
    (m2 : List (String × String)) :
    (∀ k, (alookup m k).isSome →
      (alookup (completeOnboardingBind newUserId mobile email loginId m) k).isSome) ∧
    (email ≠ "" →
      alookup (completeOnboardingBind newUserId mobile email loginId m) email
        = some newUserId) ∧
    (mobile ≠ "" → mobile ≠ email →
      alookup (completeOnboardingBind newUserId mobile email loginId m) mobile
        = some newUserId) ∧
    (loginId ≠ "" → loginId ≠ mobile → loginId ≠ email →
      jsTruthyStr (alookup m loginId) = true →
      alookup (completeOnboardingBind newUserId mobile email loginId m) loginId
        = alookup m loginId) ∧
    (loginId ≠ "" → loginId ≠ mobile → loginId ≠ email →
      jsTruthyStr (alookup m loginId) = false →
      alookup (completeOnboardingBind newUserId mobile email loginId m) loginId
        = some newUserId) ∧
    (∀ k, k ≠ mobile → k ≠ email → k ≠ loginId →
      alookup (completeOnboardingBind newUserId mobile email loginId m) k
        = alookup m k) ∧
    (∀ k, (alookup m2 k).isSome →
      (alookup (restoreBind rid rmobile remail m2) k).isSome) ∧
    (rmobile ≠ "" → rmobile ≠ remail →
      alookup (restoreBind rid rmobile remail m2) rmobile = some rid) ∧
    (remail ≠ "" →
      alookup (restoreBind rid rmobile remail m2) remail = some rid) ∧
    (∀ k, k ≠ rmobile → k ≠ remail →
      alookup (restoreBind rid rmobile remail m2) k = alookup m2 k) := by
  refine ⟨?_, ?_, ?_, ?_, ?_, ?_, ?_, ?_, ?_, ?_⟩
  · intro k hsome
    rw [alookup_completeOnboardingBind]
    by_cases h1 : loginId ≠ "" ∧ loginId = k ∧
        jsTruthyStr (if email ≠ "" ∧ email = loginId then some newUserId
          else if mobile ≠ "" ∧ mobile = loginId then some newUserId
          else alookup m loginId) = false
    · rw [if_pos h1]; rfl
    · rw [if_neg h1]
      by_cases h2 : email ≠ "" ∧ email = k
      · rw [if_pos h2]; rfl
      · rw [if_neg h2]
        by_cases h3 : mobile ≠ "" ∧ mobile = k
        · rw [if_pos h3]; rfl
        · rw [if_neg h3]; exact hsome
  · intro he
    rw [alookup_completeOnboardingBind]
    by_cases hli : loginId ≠ "" ∧ loginId = email ∧
        jsTruthyStr (if email ≠ "" ∧ email = loginId then some newUserId
          else if mobile ≠ "" ∧ mobile = loginId then some newUserId
          else alookup m loginId) = false
    · rw [if_pos hli]
    · rw [if_neg hli, if_pos ⟨he, rfl⟩]
  · intro hm hme
    rw [alookup_completeOnboardingBind]
    by_cases hli : loginId ≠ "" ∧ loginId = mobile ∧
        jsTruthyStr (if email ≠ "" ∧ email = loginId then some newUserId
          else if mobile ≠ "" ∧ mobile = loginId then some newUserId
          else alookup m loginId) = false
    · rw [if_pos hli]
    · rw [if_neg hli]
      have hne : ¬(email ≠ "" ∧ email = mobile) := fun hx => hme (hx.2.symm)
      rw [if_neg hne, if_pos ⟨hm, rfl⟩]
  · intro h1 h2 h3 h4
    rw [alookup_completeOnboardingBind]
    have hee : ¬(email ≠ "" ∧ email = loginId) := fun hx => h3 hx.2.symm
    have hmm : ¬(mobile ≠ "" ∧ mobile = loginId) := fun hx => h2 hx.2.symm
    have hli : ¬(loginId ≠ "" ∧ loginId = loginId ∧
        jsTruthyStr (if email ≠ "" ∧ email = loginId then some newUserId
          else if mobile ≠ "" ∧ mobile = loginId then some newUserId
          else alookup m loginId) = false) := by
      rw [if_neg hee, if_neg hmm, h4]
      rintro ⟨_, _, hc⟩
      cases hc
    rw [if_neg hli, if_neg hee, if_neg hmm]
  · intro h1 h2 h3 h4
    rw [alookup_completeOnboardingBind]
    have hee : ¬(email ≠ "" ∧ email = loginId) := fun hx => h3 hx.2.symm
    have hmm : ¬(mobile ≠ "" ∧ mobile = loginId) := fun hx => h2 hx.2.symm
    have hli : loginId ≠ "" ∧ loginId = loginId ∧
        jsTruthyStr (if email ≠ "" ∧ email = loginId then some newUserId
          else if mobile ≠ "" ∧ mobile = loginId then some newUserId
          else alookup m loginId) = false := by
      rw [if_neg hee, if_neg hmm]
      exact ⟨h1, rfl, h4⟩
    rw [if_pos hli]
  · intro k hk1 hk2 hk3
    rw [alookup_completeOnboardingBind]
    have hli : ¬(loginId ≠ "" ∧ loginId = k ∧
        jsTruthyStr (if email ≠ "" ∧ email = loginId then some newUserId
          else if mobile ≠ "" ∧ mobile = loginId then some newUserId
          else alookup m loginId) = false) := fun hx => hk3 hx.2.1.symm
    have hee : ¬(email ≠ "" ∧ email = k) := fun hx => hk2 hx.2.symm
    have hmm : ¬(mobile ≠ "" ∧ mobile = k) := fun hx => hk1 hx.2.symm
    rw [if_neg hli, if_neg hee, if_neg hmm]
  · intro k hsome
    rw [alookup_restoreBind]
    by_cases h1 : remail ≠ "" ∧ remail = k
    · rw [if_pos h1]; rfl
    · rw [if_neg h1]
      by_cases h2 : rmobile ≠ "" ∧ rmobile = k
      · rw [if_pos h2]; rfl
      · rw [if_neg h2]; exact hsome
  · intro h1 h2
    rw [alookup_restoreBind]
    have hne : ¬(remail ≠ "" ∧ remail = rmobile) := fun hx => h2 hx.2.symm
    rw [if_neg hne, if_pos ⟨h1, rfl⟩]
  · intro h1
    rw [alookup_restoreBind, if_pos ⟨h1, rfl⟩]
  · intro k h1 h2
    rw [alookup_restoreBind]
    have he : ¬(remail ≠ "" ∧ remail = k) := fun hx => h2 hx.2.symm
    have hm : ¬(rmobile ≠ "" ∧ rmobile = k) := fun hx => h1 hx.2.symm
    rw [if_neg he, if_neg hm]

theorem identifierBind_amended_witness :
    (∀ k, (alookup [("x", "u0")] k).isSome →
      (alookup (completeOnboardingBind "uB" "mo" "em" "li" [("x", "u0")]) k).isSome) ∧
    ("em" ≠ "" →
      alookup (completeOnboardingBind "uB" "mo" "em" "li" [("x", "u0")]) "em"
        = some "uB") ∧
    ("mo" ≠ "" → "mo" ≠ "em" →
      alookup (completeOnboardingBind "uB" "mo" "em" "li" [("x", "u0")]) "mo"
        = some "uB") ∧
    ("li" ≠ "" → "li" ≠ "mo" → "li" ≠ "em" →
      jsTruthyStr (alookup [("x", "u0")] "li") = true →
      alookup (completeOnboardingBind "uB" "mo" "em" "li" [("x", "u0")]) "li"
        = alookup [("x", "u0")] "li") ∧
    ("li" ≠ "" → "li" ≠ "mo" → "li" ≠ "em" →
      jsTruthyStr (alookup [("x", "u0")] "li") = false →
      alookup (completeOnboardingBind "uB" "mo" "em" "li" [("x", "u0")]) "li"
        = some "uB") ∧
    (∀ k, k ≠ "mo" → k ≠ "em" → k ≠ "li" →
      alookup (completeOnboardingBind "uB" "mo" "em" "li" [("x", "u0")]) k
        = alookup [("x", "u0")] k) ∧
    (∀ k, (alookup [("y", "u1")] k).isSome →
      (alookup (restoreBind "rB" "rm" "re" [("y", "u1")]) k).isSome) ∧
    ("rm" ≠ "" → "rm" ≠ "re" →
      alookup (restoreBind "rB" "rm" "re" [("y", "u1")]) "rm" = some "rB") ∧
    ("re" ≠ "" →
      alookup (restoreBind "rB" "rm" "re" [("y", "u1")]) "re" = some "rB") ∧
    (∀ k, k ≠ "rm" → k ≠ "re" →
      alookup (restoreBind "rB" "rm" "re" [("y", "u1")]) k
        = alookup [("y", "u1")] k) :=
  identifierBind_amended "uB" "mo" "em" "li" [("x", "u0")] "rB" "rm" "re"
    [("y", "u1")]

theorem daysInMonth_ge (y m : Nat) : 28 ≤ daysInMonth y m := by
  unfold daysInMonth
  split
  · split <;> norm_num
  · split <;> norm_num

theorem normalizeYmd_of_le (x : Ymd) (h : x.d ≤ daysInMonth x.y x.m) :
    normalizeYmd x = x := by
  unfold normalizeYmd
  rw [if_pos h]

/-- C3: markReceived replaces the located income with a Received copy dated
today; when the recurrence is Monthly (resp. Yearly) exactly one new
Expected record is generated, carrying the fresh id and timestamp, the same
amount/category/source/recurrence/tenant contact, and a date obtained from
the original due date by the calendar month (resp. year) step; when the
recurrence is None no new record is produced.  For day components up to 28
the calendar step is literally "same day, next month / next year". -/
theorem markIncomeReceived_spec (freshId : String) (now : Nat)
    (today : String) (id : String) (prev : List Income) (inc : Income)
    (cur : Ymd)
    (hfind : prev.find? (fun i => i.id = id) = some inc)
    (hparse : inc.recurrence ≠ .None → jsParseDate inc.date = some cur) :
    markIncomeReceived freshId now today id prev = some (
      match inc.recurrence with
      | .None => { inc with status := .Received, date := today } ::
          prev.filter (fun i => i.id ≠ id)
      | .Monthly =>
          { inc with
            id := freshId
            date := ymdToIso (jsAddMonth cur)
            status := .Expected
            createdAt := now } ::
          { inc with status := .Received, date := today } ::
          prev.filter (fun i => i.id ≠ id)
      | .Yearly =>
          { inc with
            id := freshId
            date := ymdToIso (jsAddYear cur)
            status := .Expected
            createdAt := now } ::
          { inc with status := .Received, date := today } ::
          prev.filter (fun i => i.id ≠ id)) ∧
    (cur.d ≤ 28 →
      jsAddMonth cur = (if cur.m = 12 then ⟨cur.y + 1, 1, cur.d⟩
        else ⟨cur.y, cur.m + 1, cur.d⟩)) ∧
    (cur.d ≤ 28 → jsAddYear cur = ⟨cur.y + 1, cur.m, cur.d⟩) := by
  refine ⟨?_, ?_, ?_⟩
  · rcases hrec : inc.recurrence with _ | _ | _
    · simp [markIncomeReceived, hfind, hrec]
    · simp [markIncomeReceived, hfind, hrec,
        hparse (by rw [hrec]; intro hcontra; cases hcontra)]
    · simp [markIncomeReceived, hfind, hrec,
        hparse (by rw [hrec]; intro hcontra; cases hcontra)]
  · intro hd
    unfold jsAddMonth
    by_cases hm : cur.m = 12
    · rw [if_pos hm, if_pos hm]
      exact normalizeYmd_of_le _ (le_trans hd (daysInMonth_ge _ _))
    · rw [if_neg hm, if_neg hm]
      exact normalizeYmd_of_le _ (le_trans hd (daysInMonth_ge _ _))
  · intro hd
    unfold jsAddYear
    exact normalizeYmd_of_le _ (le_trans hd (daysInMonth_ge _ _))

/-- C3 witness: the spec's example — a Monthly income due 2024-01-15 marked
received on 2024-03-05 becomes Received dated today, and the generated
occurrence is an Expected income dated 2024-02-15. -/
theorem markIncomeReceived_spec_witness :
    markIncomeReceived "i2" 5 "2024-03-05" "i1" [sampleIncome] = some
      [{ sampleIncome with
          id := "i2"
          date := "2024-02-15"
          status := .Expected
          createdAt := 5 },
       { sampleIncome with status := .Received, date := "2024-03-05" }] := by
  have h := (markIncomeReceived_spec "i2" 5 "2024-03-05" "i1" [sampleIncome]
    sampleIncome ⟨2024, 1, 15⟩ rfl (fun _ => rfl)).1
  rw [h]
  rfl

theorem b64Idx_b64Char : ∀ i, i < 64 → b64Idx (b64Char i) = some i := by decide

theorem b64Char_ne_pad : ∀ i, i < 64 → (b64Char i = '=') = False := by decide

theorem b64_roundtrip : ∀ l : List Nat, (∀ b ∈ l, b < 256) →
    b64DecodeList (b64EncodeList l) = some l
  | [], _ => rfl
  | [b0], h => by
    have hb0 : b0 < 256 := h b0 (by simp)
    have h1 : b0 / 4 < 64 := by omega
    have h2 : b0 % 4 * 16 < 64 := by omega
    simp [b64EncodeList, b64DecodeList, b64Idx_b64Char _ h1,
      b64Idx_b64Char _ h2]
    omega
  | [b0, b1], h => by
    have hb0 : b0 < 256 := h b0 (by simp)
    have hb1 : b1 < 256 := h b1 (by simp)
    have h1 : b0 / 4 < 64 := by omega
    have h2 : b0 % 4 * 16 + b1 / 16 < 64 := by omega
    have h3 : b1 % 16 * 4 < 64 := by omega
    simp [b64EncodeList, b64DecodeList, b64Idx_b64Char _ h1,
      b64Idx_b64Char _ h2, b64Idx_b64Char _ h3, b64Char_ne_pad _ h3]
    constructor
    · omega
    · omega
  | b0 :: b1 :: b2 :: b3 :: rest, h => by
    have hb0 : b0 < 256 := h b0 (by simp)
    have hb1 : b1 < 256 := h b1 (by simp)
    have hb2 : b2 < 256 := h b2 (by simp)
    have h1 : b0 / 4 < 64 := by omega
    have h2 : b0 % 4 * 16 + b1 / 16 < 64 := by omega
    have h3 : b1 % 16 * 4 + b2 / 64 < 64 := by omega
    have h4 : b2 % 64 < 64 := by omega
    have ih := b64_roundtrip (b3 :: rest) (fun b hb => h b (by simp at hb ⊢; tauto))
    simp [b64EncodeList, b64DecodeList, b64Idx_b64Char _ h1,
      b64Idx_b64Char _ h2, b64Idx_b64Char _ h3, b64Idx_b64Char _ h4,
      b64Char_ne_pad _ h3, b64Char_ne_pad _ h4, ih]
    refine ⟨by omega, by omega, by omega⟩
  | [b0, b1, b2], h => by
    have hb0 : b0 < 256 := h b0 (by simp)
    have hb1 : b1 < 256 := h b1 (by simp)
    have hb2 : b2 < 256 := h b2 (by simp)
    have h1 : b0 / 4 < 64 := by omega
    have h2 : b0 % 4 * 16 + b1 / 16 < 64 := by omega
    have h3 : b1 % 16 * 4 + b2 / 64 < 64 := by omega
    have h4 : b2 % 64 < 64 := by omega
    simp [b64EncodeList, b64DecodeList, b64Idx_b64Char _ h1,
      b64Idx_b64Char _ h2, b64Idx_b64Char _ h3, b64Idx_b64Char _ h4,
      b64Char_ne_pad _ h3, b64Char_ne_pad _ h4]
    refine ⟨by omega, by omega, by omega⟩

theorem keyByte_lt (i : Nat) : keyByte i < 256 := by
  have hlen : secretKeyBytes.length = 26 := by decide
  have hmod : i % 26 < 26 := Nat.mod_lt _ (by norm_num)
  have hall : ∀ j, j < 26 → secretKeyBytes.getD j 0 < 256 := by decide
  unfold keyByte
  rw [hlen]
  exact hall _ hmod

theorem xorFrom_involution (l : List Nat) : ∀ i,
    xorFrom i (xorFrom i l) = l := by
  induction l with
  | nil => intro i; rfl
  | cons b r ih =>
    intro i
    simp only [xorFrom, ih (i + 1), List.cons.injEq, and_true]
    rw [Nat.xor_assoc, Nat.xor_self, Nat.xor_zero]

theorem xorFrom_lt (l : List Nat) : ∀ i, (∀ b ∈ l, b < 256) →
    ∀ b ∈ xorFrom i l, b < 256 := by
  induction l with
  | nil => intro i _ b hb; cases hb
  | cons x r ih =>
    intro i h b hb
    simp only [xorFrom, List.mem_cons] at hb
    rcases hb with hb | hb
    · subst hb
      have h1 : x < 2 ^ 8 := h x (by simp)
      have h2 : keyByte i < 2 ^ 8 := keyByte_lt i
      exact Nat.xor_lt_two_pow h1 h2
    · exact ih (i + 1) (fun y hy => h y (by simp [hy])) b hb

theorem utf8EncodeChar_lt (c : Char) : ∀ b ∈ utf8EncodeChar c, b < 256 := by
  intro b hb
  have hv : c.toNat.isValidChar := c.valid
  have hlt : c.toNat < 1114112 := by
    rcases hv with h | h <;> omega
  unfold utf8EncodeChar at hb
  by_cases h1 : c.toNat < 128
  · simp [h1] at hb
    omega
  · by_cases h2 : c.toNat < 2048
    · simp [h1, h2] at hb
      rcases hb with hb | hb <;> omega
    · by_cases h3 : c.toNat < 65536
      · simp [h1, h2, h3] at hb
        rcases hb with hb | hb | hb <;> omega
      · simp [h1, h2, h3] at hb
        rcases hb with hb | hb | hb | hb <;> omega

theorem utf8EncodeList_lt (cs : List Char) : ∀ b ∈ utf8EncodeList cs,
    b < 256 := by
  induction cs with
  | nil => intro b hb; cases hb
  | cons c r ih =>
    intro b hb
    simp only [utf8EncodeList, List.mem_append] at hb
    rcases hb with hb | hb
    · exact utf8EncodeChar_lt c b hb
    · exact ih b hb

theorem utf8DecodeStep_enc (c : Char) (rest : List Nat) :
    utf8DecodeStep (utf8EncodeChar c ++ rest) = some (c, rest) := by
  have hv : c.toNat.isValidChar := c.valid
  have hlt : c.toNat < 1114112 := by
    rcases hv with h | h <;> omega
  unfold utf8EncodeChar
  by_cases h1 : c.toNat < 128
  · simp only [h1, if_true, List.cons_append, List.nil_append]
    simp only [utf8DecodeStep, h1, if_true, Char.ofNat_toNat]
  · by_cases h2 : c.toNat < 2048
    · simp only [h1, if_false, h2, if_true, List.cons_append, List.nil_append]
      have e1 : ¬ (192 + c.toNat / 64 < 128) := by omega
      have e2 : ¬ (192 + c.toNat / 64 < 192) := by omega
      have e3 : 192 + c.toNat / 64 < 224 := by omega
      simp only [utf8DecodeStep, e1, if_false, e2, e3, if_true]
      have e4 : (decide (128 ≤ 128 + c.toNat % 64) &&
          decide (128 + c.toNat % 64 < 192)) = true := by
        simp only [Bool.and_eq_true, decide_eq_true_eq]
        omega
      have e5 : (192 + c.toNat / 64 - 192) * 64 + (128 + c.toNat % 64 - 128)
          = c.toNat := by omega
      simp only [utf8Two, e4, if_true, e5, if_pos hv, Char.ofNat_toNat]
    · by_cases h3 : c.toNat < 65536
      · simp only [h1, h2, if_false, h3, if_true, List.cons_append,
          List.nil_append]
        have e1 : ¬ (224 + c.toNat / 4096 < 128) := by omega
        have e2 : ¬ (224 + c.toNat / 4096 < 192) := by omega
        have e3 : ¬ (224 + c.toNat / 4096 < 224) := by omega
        have e4 : 224 + c.toNat / 4096 < 240 := by omega
        simp only [utf8DecodeStep, e1, if_false, e2, e3, e4, if_true]
        have e5 : ((decide (128 ≤ 128 + c.toNat / 64 % 64) &&
            decide (128 + c.toNat / 64 % 64 < 192)) &&
            (decide (128 ≤ 128 + c.toNat % 64) &&
            decide (128 + c.toNat % 64 < 192))) = true := by
          simp only [Bool.and_eq_true, decide_eq_true_eq]
          omega
        have e6 : (224 + c.toNat / 4096 - 224) * 4096 +
            (128 + c.toNat / 64 % 64 - 128) * 64 + (128 + c.toNat % 64 - 128)
            = c.toNat := by omega
        simp only [utf8Three, e5, if_true, e6, if_pos hv, Char.ofNat_toNat]
      · simp only [h1, h2, h3, if_false, List.cons_append, List.nil_append]
        have e1 : ¬ (240 + c.toNat / 262144 < 128) := by omega
        have e2 : ¬ (240 + c.toNat / 262144 < 192) := by omega
        have e3 : ¬ (240 + c.toNat / 262144 < 224) := by omega
        have e4 : ¬ (240 + c.toNat / 262144 < 240) := by omega
        have e5 : 240 + c.toNat / 262144 < 248 := by omega
        simp only [utf8DecodeStep, e1, if_false, e2, e3, e4, e5, if_true]
        have e6 : ((decide (128 ≤ 128 + c.toNat / 4096 % 64) &&
            decide (128 + c.toNat / 4096 % 64 < 192)) &&
            ((decide (128 ≤ 128 + c.toNat / 64 % 64) &&
            decide (128 + c.toNat / 64 % 64 < 192)) &&
            (decide (128 ≤ 128 + c.toNat % 64) &&
            decide (128 + c.toNat % 64 < 192)))) = true := by
          simp only [Bool.and_eq_true, decide_eq_true_eq]
          omega
        have e7 : (240 + c.toNat / 262144 - 240) * 262144 +
            (128 + c.toNat / 4096 % 64 - 128) * 4096 +
            (128 + c.toNat / 64 % 64 - 128) * 64 + (128 + c.toNat % 64 - 128)
            = c.toNat := by omega
        simp only [utf8Four, e6, if_true, e7, if_pos hv, Char.ofNat_toNat]

theorem utf8EncodeChar_ne_nil (c : Char) : utf8EncodeChar c ≠ [] := by
  unfold utf8EncodeChar
  by_cases h1 : c.toNat < 128
  · simp [h1]
  · by_cases h2 : c.toNat < 2048
    · simp [h1, h2]
    · by_cases h3 : c.toNat < 65536
      · simp [h1, h2, h3]
      · simp [h1, h2, h3]

theorem utf8DecodeGo_enc (cs : List Char) : ∀ fuel,
    (utf8EncodeList cs).length ≤ fuel →
    utf8DecodeGo fuel (utf8EncodeList cs) = some cs := by
  induction cs with
  | nil => intro fuel _; cases fuel <;> rfl
  | cons c r ih =>
    intro fuel hfuel
    rcases hE : utf8EncodeChar c with _ | ⟨b, bs⟩
    · exact absurd hE (utf8EncodeChar_ne_nil c)
    · have hform : utf8EncodeList (c :: r) =
          b :: (bs ++ utf8EncodeList r) := by
        simp only [utf8EncodeList, hE, List.cons_append]
      rw [hform] at hfuel ⊢
      rcases fuel with _ | fuel
      · simp at hfuel
      · have hstep : utf8DecodeStep (b :: (bs ++ utf8EncodeList r)) =
            some (c, utf8EncodeList r) := by
          have := utf8DecodeStep_enc c (utf8EncodeList r)
          rw [hE] at this
          simpa using this
        simp only [utf8DecodeGo, hstep]
        have hlen : (utf8EncodeList r).length ≤ fuel := by
          simp only [List.length_cons, List.length_append] at hfuel
          omega
        rw [ih fuel hlen]
        rfl

theorem utf8_roundtrip (cs : List Char) :
    utf8DecodeList (utf8EncodeList cs) = some cs :=
  utf8DecodeGo_enc cs _ le_rfl

theorem digitChar_props : ∀ d, d < 10 →
    (digitChar d).isDigit = true ∧ (digitChar d).toNat - 48 = d ∧
    48 + d < 55296 := by decide

theorem natToDigitsRev_digits (n : Nat) :
    ∀ c ∈ natToDigitsRev n, c.isDigit = true := by
  induction n using Nat.strong_induction_on with
  | _ n ih =>
    rw [natToDigitsRev]
    by_cases h : n = 0
    · simp [h]
    · rw [if_neg h]
      intro c hc
      rcases List.mem_cons.mp hc with hc | hc
      · subst hc
        exact (digitChar_props _ (Nat.mod_lt _ (by norm_num))).1
      · exact ih (n / 10) (Nat.div_lt_self (Nat.pos_of_ne_zero h)
          (by norm_num)) c hc

theorem natToDigitsRev_foldr (n : Nat) : ∀ acc,
    (natToDigitsRev n).foldr (fun c a => 10 * a + (c.toNat - 48)) acc =
      acc * 10 ^ (natToDigitsRev n).length + n := by
  induction n using Nat.strong_induction_on with
  | _ n ih =>
    intro acc
    rw [natToDigitsRev]
    by_cases h : n = 0
    · simp [h]
    · rw [if_neg h]
      simp only [List.foldr_cons, List.length_cons]
      rw [ih (n / 10) (Nat.div_lt_self (Nat.pos_of_ne_zero h) (by norm_num))
        acc]
      have hdig : (digitChar (n % 10)).toNat - 48 = n % 10 :=
        (digitChar_props _ (Nat.mod_lt _ (by norm_num))).2.1
      rw [hdig]
      have hmod : 10 * (n / 10) + n % 10 = n := by omega
      calc 10 * (acc * 10 ^ (natToDigitsRev (n / 10)).length + n / 10) + n % 10
          = acc * 10 ^ ((natToDigitsRev (n / 10)).length + 1) +
            (10 * (n / 10) + n % 10) := by ring
        _ = acc * 10 ^ ((natToDigitsRev (n / 10)).length + 1) + n := by
            rw [hmod]

theorem parseDigitsAcc_append (ds : List Char) :
    ∀ (rest : List Char) (acc : Nat), (∀ c ∈ ds, c.isDigit = true) →
    (∀ c, rest.head? = some c → c.isDigit = false) →
    parseDigitsAcc (ds ++ rest) acc =
      (ds.foldl (fun a c => 10 * a + (c.toNat - 48)) acc, rest) := by
  induction ds with
  | nil =>
    intro rest acc _ hrest
    rcases rest with _ | ⟨c, r⟩
    · rfl
    · have hc : c.isDigit = false := hrest c rfl
      simp [parseDigitsAcc, hc]
  | cons d ds ih =>
    intro rest acc hds hrest
    have hd : d.isDigit = true := hds d (by simp)
    simp only [List.cons_append, parseDigitsAcc, hd, if_true, List.foldl_cons]
    exact ih rest _ (fun c hc => hds c (by simp [hc])) hrest

theorem natPrint_digits (n : Nat) : ∀ c ∈ natPrint n, c.isDigit = true := by
  unfold natPrint
  by_cases h : n = 0
  · simp [h]
  · rw [if_neg h]
    intro c hc
    exact natToDigitsRev_digits n c (List.mem_reverse.mp hc)

theorem natPrint_parse (n : Nat) (rest : List Char)
    (hrest : ∀ c, rest.head? = some c → c.isDigit = false) :
    parseDigitsAcc (natPrint n ++ rest) 0 = (n, rest) := by
  rw [parseDigitsAcc_append (natPrint n) rest 0 (natPrint_digits n) hrest]
  unfold natPrint
  by_cases h : n = 0
  · simp [h]
  · rw [if_neg h]
    rw [List.foldl_reverse]
    rw [natToDigitsRev_foldr n 0]
    simp

theorem natPrint_ne_nil (n : Nat) : natPrint n ≠ [] := by
  unfold natPrint
  by_cases h : n = 0
  · simp [h]
  · rw [if_neg h]
    intro hcon
    rw [List.reverse_eq_nil_iff] at hcon
    rw [natToDigitsRev] at hcon
    rw [if_neg h] at hcon
    cases hcon

theorem hexVal_hexChar : ∀ v, v < 16 → hexValOf (hexChar v) = some v := by
  decide

theorem parseStrBody_esc (s : List Char) (rest : List Char) :
    parseStrBody (escString s ++ '"' :: rest) = some (s, rest) := by
  induction s with
  | nil =>
    simp only [escString, List.nil_append]
    rw [parseStrBody.eq_def]
    simp
  | cons c r ih =>
    simp only [escString, List.append_assoc]
    by_cases h1 : c = '"'
    · subst h1
      rw [show escChar '"' = ['\\', '"'] from by decide]
      simp only [List.cons_append, List.nil_append]
      rw [parseStrBody.eq_def]
      simp [ih]
    · by_cases h2 : c = '\\'
      · subst h2
        rw [show escChar '\\' = ['\\', '\\'] from by decide]
        simp only [List.cons_append, List.nil_append]
        rw [parseStrBody.eq_def]
        simp [ih]
      · by_cases h3 : c = Char.ofNat 8
        · subst h3
          rw [show escChar (Char.ofNat 8) = ['\\', 'b'] from by decide]
          simp only [List.cons_append, List.nil_append]
          rw [parseStrBody.eq_def]
          simp [ih]
        · by_cases h4 : c = Char.ofNat 9
          · subst h4
            rw [show escChar (Char.ofNat 9) = ['\\', 't'] from by decide]
            simp only [List.cons_append, List.nil_append]
            rw [parseStrBody.eq_def]
            simp [ih]
          · by_cases h5 : c = Char.ofNat 10
            · subst h5
              rw [show escChar (Char.ofNat 10) = ['\\', 'n'] from by decide]
              simp only [List.cons_append, List.nil_append]
              rw [parseStrBody.eq_def]
              simp [ih]
            · by_cases h6 : c = Char.ofNat 12
              · subst h6
                rw [show escChar (Char.ofNat 12) = ['\\', 'f'] from by decide]
                simp only [List.cons_append, List.nil_append]
                rw [parseStrBody.eq_def]
                simp [ih]
              · by_cases h7 : c = Char.ofNat 13
                · subst h7
                  rw [show escChar (Char.ofNat 13) = ['\\', 'r'] from by
                    decide]
                  simp only [List.cons_append, List.nil_append]
                  rw [parseStrBody.eq_def]
                  simp [ih]
                · by_cases h8 : c.toNat < 32
                  · have hesc : escChar c = ['\\', 'u', '0', '0',
                        hexChar (c.toNat / 16), hexChar (c.toNat % 16)] := by
                      unfold escChar
                      rw [if_neg h1, if_neg h2, if_neg h3, if_neg h4,
                        if_neg h5, if_neg h6, if_neg h7, if_pos h8]
                    rw [hesc]
                    simp only [List.cons_append, List.nil_append]
                    rw [parseStrBody.eq_def]
                    have hv1 : c.toNat / 16 < 16 := by omega
                    have hv2 : c.toNat % 16 < 16 := by omega
                    have hval : (c.toNat).isValidChar := Or.inl (by omega)
                    have harith : 4096 * 0 + 256 * 0 + 16 * (c.toNat / 16) +
                        c.toNat % 16 = c.toNat := by omega
                    simp [hexVal_hexChar _ hv1, hexVal_hexChar _ hv2,
                      show hexValOf '0' = some 0 from by decide, ih]
                    rw [show 16 * (c.toNat / 16) + c.toNat % 16 = c.toNat
                      from by omega]
                    exact ⟨hval, Char.ofNat_toNat c⟩
                  · have hesc : escChar c = [c] := by
                      unfold escChar
                      rw [if_neg h1, if_neg h2, if_neg h3, if_neg h4,
                        if_neg h5, if_neg h6, if_neg h7, if_neg h8]
                    rw [hesc]
                    simp only [List.cons_append, List.nil_append]
                    rw [parseStrBody.eq_def]
                    simp [h1, h2, h8, ih]

theorem stringMk_data (s : String) : String.mk s.data = s := by
  cases s
  rfl

theorem skipWs_cons (c : Char) (r : List Char) (h : isWs c = false) :
    skipWs (c :: r) = c :: r := by
  simp [skipWs, h]

theorem isDigit_not_ws (c : Char) (h : c.isDigit = true) :
    isWs c = false := by
  unfold isWs
  by_contra hcon
  simp only [Bool.not_eq_false, Bool.or_eq_true, decide_eq_true_eq] at hcon
  rcases hcon with ((rfl | rfl) | rfl) | rfl <;> exact absurd h (by decide)

theorem isDigit_ne (c : Char) (d : Char) (h : c.isDigit = true)
    (hd : d.isDigit = false) : c ≠ d := by
  intro heq
  subst heq
  rw [h] at hd
  cases hd

theorem natToDigitsRev_ne_nil (n : Nat) (h : n ≠ 0) :
    natToDigitsRev n ≠ [] := by
  rw [natToDigitsRev, if_neg h]
  intro hcon
  cases hcon

theorem intPrint_ne_nil (n : Int) : intPrint n ≠ [] := by
  unfold intPrint
  by_cases h : n < 0
  · simp [h]
  · simp [h, natPrint_ne_nil]

theorem stringifyVal_ne_nil (v : Json) : stringifyVal v ≠ [] := by
  cases v with
  | null => simp [stringifyVal]
  | bool b => cases b <;> simp [stringifyVal]
  | num n => simp only [stringifyVal]; exact intPrint_ne_nil n
  | str s => simp [stringifyVal]
  | arr l => simp [stringifyVal]
  | obj l => simp [stringifyVal]

/-- The head of a printed value is a digit or one of the eight dispatch
characters. -/
theorem stringifyVal_head (v : Json) : ∃ c cs, stringifyVal v = c :: cs ∧
    (c.isDigit = true ∨ c = '-' ∨ c = '"' ∨ c = '[' ∨ c = '{' ∨
      c = 'n' ∨ c = 't' ∨ c = 'f') := by
  cases v with
  | null => exact ⟨'n', ['u', 'l', 'l'], by simp [stringifyVal], by simp⟩
  | bool b =>
    cases b
    · exact ⟨'f', ['a', 'l', 's', 'e'], by simp [stringifyVal], by simp⟩
    · exact ⟨'t', ['r', 'u', 'e'], by simp [stringifyVal], by simp⟩
  | num n =>
    by_cases h : n < 0
    · refine ⟨'-', natPrint n.natAbs, ?_, by simp⟩
      simp [stringifyVal, intPrint, h]
    · rcases hnp : natPrint n.natAbs with _ | ⟨c, cs⟩
      · exact absurd hnp (natPrint_ne_nil _)
      · refine ⟨c, cs, ?_, ?_⟩
        · simp [stringifyVal, intPrint, h, hnp]
        · exact Or.inl (natPrint_digits _ c (by rw [hnp]; simp))
  | str s =>
    exact ⟨'"', escString s.data ++ ['"'], by simp [stringifyVal], by simp⟩
  | arr l =>
    exact ⟨'[', stringifyArr l ++ [']'], by simp [stringifyVal], by simp⟩
  | obj l =>
    exact ⟨'{', stringifyObj l ++ ['}'], by simp [stringifyVal], by simp⟩

theorem head_opts_ws (c : Char)
    (h : c.isDigit = true ∨ c = '-' ∨ c = '"' ∨ c = '[' ∨ c = '{' ∨
      c = 'n' ∨ c = 't' ∨ c = 'f') :
    isWs c = false ∧ (c = ']') = False ∧ (c = '}') = False := by
  rcases h with h | rfl | rfl | rfl | rfl | rfl | rfl | rfl
  · exact ⟨isDigit_not_ws c h, eq_false (isDigit_ne c ']' h (by decide)),
      eq_false (isDigit_ne c '}' h (by decide))⟩
  all_goals exact ⟨by decide, by simp, by simp⟩

theorem restOk_head (rest : List Char) (h : RestOk rest) :
    ∀ c, rest.head? = some c → c.isDigit = false := by
  intro c hc
  rcases rest with _ | ⟨c2, r⟩
  · cases hc
  · simp only [List.head?_cons, Option.some_inj] at hc
    subst hc
    unfold RestOk at h
    rcases h with rfl | rfl | rfl <;> decide

theorem jsonFuel_pos (v : Json) : 1 ≤ jsonFuel v := by
  cases v <;> simp [jsonFuel]

theorem stringifyArr_cons (v : Json) (vs : List Json) :
    stringifyArr (v :: vs) = stringifyVal v ++
      (if vs.isEmpty then [] else ',' :: stringifyArr vs) := by
  rcases vs with _ | ⟨v2, vs2⟩
  · simp [stringifyArr]
  · simp [stringifyArr]

theorem stringifyObj_cons (k : String) (v : Json)
    (ps : List (String × Json)) :
    stringifyObj ((k, v) :: ps) = '"' ::
      (escString k.data ++ '"' :: ':' :: stringifyVal v) ++
      (if ps.isEmpty then [] else ',' :: stringifyObj ps) := by
  rcases ps with _ | ⟨p2, ps2⟩
  · simp [stringifyObj]
  · rcases p2 with ⟨k2, v2⟩
    simp [stringifyObj]

theorem parseVal_succ_digit (fuel : Nat) (d : Char) (r : List Char)
    (hd : d.isDigit = true) :
    parseVal (fuel + 1) (d :: r) =
      some (.num ((parseDigitsAcc (d :: r) 0).1 : Int),
        (parseDigitsAcc (d :: r) 0).2) := by
  rw [parseVal.eq_def]
  simp [skipWs_cons d r (isDigit_not_ws d hd), hd]

theorem parseVal_succ_neg (fuel : Nat) (c2 : Char) (r2 : List Char)
    (h : c2.isDigit = true) :
    parseVal (fuel + 1) ('-' :: c2 :: r2) =
      some (.num (-((parseDigitsAcc (c2 :: r2) 0).1 : Int)),
        (parseDigitsAcc (c2 :: r2) 0).2) := by
  rw [parseVal.eq_def]
  simp [skipWs, isWs, h]

theorem parseVal_succ_quote (fuel : Nat) (r : List Char) :
    parseVal (fuel + 1) ('"' :: r) =
      (parseStrBody r).map (fun p => (.str (String.mk p.1), p.2)) := by
  rw [parseVal.eq_def]
  simp [skipWs, isWs]

theorem parseVal_succ_arr (fuel : Nat) (c2 : Char) (r2 : List Char)
    (hne : (c2 = ']') = False) (hws : isWs c2 = false) :
    parseVal (fuel + 1) ('[' :: c2 :: r2) =
      (parseArrItems fuel (c2 :: r2)).map (fun p => (.arr p.1, p.2)) := by
  rw [parseVal.eq_def]
  simp [skipWs_cons '[' (c2 :: r2) (by decide),
    skipWs_cons c2 r2 hws, hne]

theorem parseVal_succ_arr_empty (fuel : Nat) (rest : List Char) :
    parseVal (fuel + 1) ('[' :: ']' :: rest) = some (.arr [], rest) := by
  rw [parseVal.eq_def]
  simp [skipWs, isWs]

theorem parseVal_succ_obj (fuel : Nat) (c2 : Char) (r2 : List Char)
    (hne : (c2 = '}') = False) (hws : isWs c2 = false) :
    parseVal (fuel + 1) ('{' :: c2 :: r2) =
      (parseObjItems fuel (c2 :: r2)).map (fun p => (.obj p.1, p.2)) := by
  rw [parseVal.eq_def]
  simp [skipWs_cons '{' (c2 :: r2) (by decide),
    skipWs_cons c2 r2 hws, hne]

theorem parseVal_succ_obj_empty (fuel : Nat) (rest : List Char) :
    parseVal (fuel + 1) ('{' :: '}' :: rest) = some (.obj [], rest) := by
  rw [parseVal.eq_def]
  simp [skipWs, isWs]

theorem parseVal_succ_null (fuel : Nat) (rest : List Char) :
    parseVal (fuel + 1) ('n' :: 'u' :: 'l' :: 'l' :: rest) =
      some (.null, rest) := by
  rw [parseVal.eq_def]
  simp [skipWs, isWs, expectChars]

theorem parseVal_succ_true (fuel : Nat) (rest : List Char) :
    parseVal (fuel + 1) ('t' :: 'r' :: 'u' :: 'e' :: rest) =
      some (.bool true, rest) := by
  rw [parseVal.eq_def]
  simp [skipWs, isWs, expectChars]

theorem parseVal_succ_false (fuel : Nat) (rest : List Char) :
    parseVal (fuel + 1) ('f' :: 'a' :: 'l' :: 's' :: 'e' :: rest) =
      some (.bool false, rest) := by
  rw [parseVal.eq_def]
  simp [skipWs, isWs, expectChars]

theorem parseArrItems_succ (fuel : Nat) (s : List Char) :
    parseArrItems (fuel + 1) s =
      match parseVal fuel s with
      | none => none
      | some p =>
        match skipWs p.2 with
        | [] => none
        | c :: r2 =>
          if c = ',' then
            (parseArrItems fuel r2).map (fun q => (p.1 :: q.1, q.2))
          else if c = ']' then some ([p.1], r2)
          else none := by
  rw [parseArrItems.eq_def]

theorem parseObjItems_succ (fuel : Nat) (s : List Char) :
    parseObjItems (fuel + 1) s =
      match skipWs s with
      | [] => none
      | c0 :: r =>
        if c0 = '"' then
          match parseStrBody r with
          | none => none
          | some kp =>
            match skipWs kp.2 with
            | [] => none
            | c1 :: r2 =>
              if c1 = ':' then
                match parseVal fuel r2 with
                | none => none
                | some vp =>
                  match skipWs vp.2 with
                  | [] => none
                  | c2 :: r3 =>
                    if c2 = ',' then
                      (parseObjItems fuel r3).map
                        (fun q => ((String.mk kp.1, vp.1) :: q.1, q.2))
                    else if c2 = '}' then
                      some ([(String.mk kp.1, vp.1)], r3)
                    else none
              else none
        else none := by
  rw [parseObjItems.eq_def]

mutual

theorem parseVal_print : ∀ (v : Json) (fuel : Nat) (rest : List Char),
    jsonFuel v ≤ fuel → RestOk rest →
    parseVal fuel (stringifyVal v ++ rest) = some (v, rest)
  | v, 0, rest => by
    intro hfuel _
    exact absurd hfuel (by have := jsonFuel_pos v; omega)
  | .null, fuel + 1, rest => by
    intro _ _
    simp only [stringifyVal, List.cons_append, List.nil_append]
    exact parseVal_succ_null fuel rest
  | .bool true, fuel + 1, rest => by
    intro _ _
    simp only [stringifyVal, List.cons_append, List.nil_append]
    exact parseVal_succ_true fuel rest
  | .bool false, fuel + 1, rest => by
    intro _ _
    simp only [stringifyVal, List.cons_append, List.nil_append]
    exact parseVal_succ_false fuel rest
  | .num n, fuel + 1, rest => by
    intro _ hrest
    simp only [stringifyVal]
    unfold intPrint
    by_cases h : n < 0
    · rw [if_pos h]
      rcases hnp : natPrint n.natAbs with _ | ⟨d, ds⟩
      · exact absurd hnp (natPrint_ne_nil _)
      · have hd : d.isDigit = true := natPrint_digits _ d (by rw [hnp]; simp)
        simp only [List.cons_append, hnp]
        rw [parseVal_succ_neg fuel d (ds ++ rest) hd]
        rw [show d :: (ds ++ rest) = natPrint n.natAbs ++ rest from by
          rw [hnp]; simp]
        rw [natPrint_parse n.natAbs rest (restOk_head rest hrest)]
        rw [show (-(n.natAbs : Int)) = n from by omega]
    · rw [if_neg h]
      rcases hnp : natPrint n.natAbs with _ | ⟨d, ds⟩
      · exact absurd hnp (natPrint_ne_nil _)
      · have hd : d.isDigit = true := natPrint_digits _ d (by rw [hnp]; simp)
        simp only [List.cons_append, hnp]
        rw [parseVal_succ_digit fuel d (ds ++ rest) hd]
        rw [show d :: (ds ++ rest) = natPrint n.natAbs ++ rest from by
          rw [hnp]; simp]
        rw [natPrint_parse n.natAbs rest (restOk_head rest hrest)]
        rw [show ((n.natAbs : Int)) = n from by omega]
  | .str s, fuel + 1, rest => by
    intro _ _
    simp only [stringifyVal, List.cons_append, List.append_assoc,
      List.cons_append, List.nil_append]
    rw [parseVal_succ_quote fuel _]
    rw [parseStrBody_esc s.data rest]
    simp [stringMk_data]
  | .arr [], fuel + 1, rest => by
    intro _ _
    simp only [stringifyVal, stringifyArr, List.nil_append,
      List.cons_append, List.append_assoc]
    exact parseVal_succ_arr_empty fuel rest
  | .arr (v1 :: vs), fuel + 1, rest => by
    intro hfuel _
    obtain ⟨c, cs, hc, hopts⟩ := stringifyVal_head v1
    obtain ⟨hws, hne1, _⟩ := head_opts_ws c hopts
    simp only [stringifyVal, List.cons_append, List.append_assoc,
      List.nil_append]
    have hexp : stringifyArr (v1 :: vs) ++ (']' :: rest) =
        c :: (cs ++ ((if vs.isEmpty then [] else ',' :: stringifyArr vs) ++
          (']' :: rest))) := by
      rw [stringifyArr_cons, hc]
      simp [List.cons_append, List.append_assoc]
    rw [hexp]
    rw [parseVal_succ_arr fuel c _ hne1 hws]
    rw [← hexp]
    rw [parseArrItems_print (v1 :: vs) fuel rest
      (by simp only [jsonFuel] at hfuel; omega) (by simp)]
    rfl
  | .obj [], fuel + 1, rest => by
    intro _ _
    simp only [stringifyVal, stringifyObj, List.nil_append,
      List.cons_append, List.append_assoc]
    exact parseVal_succ_obj_empty fuel rest
  | .obj ((k, v1) :: ps), fuel + 1, rest => by
    intro hfuel _
    simp only [stringifyVal, List.cons_append, List.append_assoc,
      List.nil_append]
    have hexp : stringifyObj ((k, v1) :: ps) ++ ('}' :: rest) =
        '"' :: ((escString k.data ++ '"' :: ':' :: stringifyVal v1) ++
          ((if ps.isEmpty then [] else ',' :: stringifyObj ps) ++
            ('}' :: rest))) := by
      rw [stringifyObj_cons]
      simp [List.cons_append, List.append_assoc]
    rw [hexp]
    rw [parseVal_succ_obj fuel '"' _ (by simp) (by decide)]
    rw [← hexp]
    rw [parseObjItems_print ((k, v1) :: ps) fuel rest
      (by simp only [jsonFuel] at hfuel; omega) (by simp)]
    rfl

theorem parseArrItems_print : ∀ (l : List Json) (fuel : Nat)
    (rest : List Char), jsonFuelArr l ≤ fuel → l ≠ [] →
    parseArrItems fuel (stringifyArr l ++ ']' :: rest) = some (l, rest)
  | [], _, _ => by
    intro _ h
    exact absurd rfl h
  | v :: vs, 0, rest => by
    intro hfuel _
    simp only [jsonFuelArr] at hfuel
    omega
  | v :: vs, fuel + 1, rest => by
    intro hfuel _
    rw [stringifyArr_cons]
    rcases vs with _ | ⟨v2, vs2⟩
    · simp only [List.isEmpty_nil, if_true, List.append_nil]
      rw [parseArrItems_succ fuel _]
      rw [parseVal_print v fuel (']' :: rest)
        (by simp only [jsonFuelArr, jsonFuel] at hfuel ⊢; omega)
        (by simp [RestOk])]
      simp [skipWs, isWs]
    · simp only [List.isEmpty_cons, Bool.false_eq_true, if_false,
        List.append_assoc, List.cons_append]
      rw [parseArrItems_succ fuel _]
      rw [parseVal_print v fuel
        (',' :: (stringifyArr (v2 :: vs2) ++ ']' :: rest))
        (by simp only [jsonFuelArr] at hfuel; omega)
        (by simp [RestOk])]
      simp [skipWs, isWs,
        parseArrItems_print (v2 :: vs2) fuel rest
          (by simp only [jsonFuelArr] at hfuel ⊢; omega) (by simp)]

theorem parseObjItems_print : ∀ (l : List (String × Json)) (fuel : Nat)
    (rest : List Char), jsonFuelObj l ≤ fuel → l ≠ [] →
    parseObjItems fuel (stringifyObj l ++ '}' :: rest) = some (l, rest)
  | [], _, _ => by
    intro _ h
    exact absurd rfl h
  | (k, v) :: ps, 0, rest => by
    intro hfuel _
    simp only [jsonFuelObj] at hfuel
    omega
  | (k, v) :: ps, fuel + 1, rest => by
    intro hfuel _
    rw [stringifyObj_cons]
    rcases ps with _ | ⟨⟨k2, v2⟩, ps2⟩
    · simp only [List.isEmpty_nil, if_true, List.append_nil,
        List.cons_append, List.append_assoc]
      rw [parseObjItems_succ fuel _]
      rw [skipWs_cons '"' _ (by decide)]
      simp only [eq_self_iff_true, if_true]
      rw [parseStrBody_esc k.data]
      simp [skipWs, isWs, stringMk_data,
        parseVal_print v fuel ('}' :: rest)
          (by simp only [jsonFuelObj, jsonFuel] at hfuel ⊢; omega)
          (by simp [RestOk])]
    · simp only [List.isEmpty_cons, Bool.false_eq_true, if_false,
        List.append_assoc, List.cons_append]
      rw [parseObjItems_succ fuel _]
      rw [skipWs_cons '"' _ (by decide)]
      simp only [eq_self_iff_true, if_true]
      rw [parseStrBody_esc k.data]
      simp [skipWs, isWs, stringMk_data,
        parseVal_print v fuel
          (',' :: (stringifyObj ((k2, v2) :: ps2) ++ '}' :: rest))
          (by simp only [jsonFuelObj] at hfuel; omega)
          (by simp [RestOk]),
        parseObjItems_print ((k2, v2) :: ps2) fuel rest
          (by simp only [jsonFuelObj] at hfuel ⊢; omega) (by simp)]

end

mutual

theorem jsonFuel_le_len : ∀ v : Json, jsonFuel v ≤ (stringifyVal v).length
  | .null => by simp [jsonFuel, stringifyVal]
  | .bool b => by cases b <;> simp [jsonFuel, stringifyVal]
  | .num n => by
    simp only [jsonFuel, stringifyVal]
    have h : 0 < (intPrint n).length :=
      List.length_pos.mpr (intPrint_ne_nil n)
    omega
  | .str s => by
    simp [jsonFuel, stringifyVal]
  | .arr l => by
    simp only [jsonFuel, stringifyVal, List.length_cons, List.length_append]
    have := jsonFuelArr_le_len l
    omega
  | .obj l => by
    simp only [jsonFuel, stringifyVal, List.length_cons, List.length_append]
    have := jsonFuelObj_le_len l
    omega

theorem jsonFuelArr_le_len : ∀ l : List Json,
    jsonFuelArr l ≤ 1 + (stringifyArr l).length
  | [] => by simp [jsonFuelArr]
  | [v] => by
    simp only [jsonFuelArr, stringifyArr]
    have := jsonFuel_le_len v
    omega
  | v :: v2 :: vs => by
    simp only [jsonFuelArr, stringifyArr, List.length_append,
      List.length_cons]
    have h1 := jsonFuel_le_len v
    have h2 := jsonFuelArr_le_len (v2 :: vs)
    simp only [jsonFuelArr] at h2
    omega

theorem jsonFuelObj_le_len : ∀ l : List (String × Json),
    jsonFuelObj l ≤ 1 + (stringifyObj l).length
  | [] => by simp [jsonFuelObj]
  | [(k, v)] => by
    simp only [jsonFuelObj, stringifyObj, List.length_cons,
      List.length_append]
    have := jsonFuel_le_len v
    omega
  | (k, v) :: (k2, v2) :: ps => by
    simp only [jsonFuelObj, stringifyObj, List.length_append,
      List.length_cons]
    have h1 := jsonFuel_le_len v
    have h2 := jsonFuelObj_le_len ((k2, v2) :: ps)
    simp only [jsonFuelObj] at h2
    omega

end

theorem jsonParse_stringify (v : Json) : jsonParse (stringify v) = some v := by
  unfold jsonParse stringify
  have h := parseVal_print v ((String.mk (stringifyVal v)).length + 1) []
    (by have := jsonFuel_le_len v
        simp only [String.length, stringMk_data]
        omega)
    (by simp [RestOk])
  rw [List.append_nil] at h
  rw [show (String.mk (stringifyVal v)).data = stringifyVal v from rfl]
  rw [h]
  simp [skipWs]

theorem xorKey_involution (l : List Nat) : xorKey (xorKey l) = l := by
  unfold xorKey
  exact xorFrom_involution l 0

/-- Helper roundtrip for the whole cipher pipeline. -/
theorem decrypt_encrypt (v : Json) : decryptData (encryptData v) = some v := by
  unfold decryptData encryptData
  have h1 : b64DecodeList
      (String.mk (b64EncodeList (xorKey (utf8Encode (stringify v))))).data =
      some (xorKey (utf8Encode (stringify v))) := by
    rw [show (String.mk (b64EncodeList (xorKey (utf8Encode
      (stringify v))))).data = b64EncodeList (xorKey (utf8Encode
      (stringify v))) from rfl]
    exact b64_roundtrip _ (xorFrom_lt _ 0 (utf8EncodeList_lt _))
  rw [h1]
  have h2 : xorKey (xorKey (utf8Encode (stringify v))) =
      utf8Encode (stringify v) := xorFrom_involution _ 0
  simp only [h2]
  rw [show utf8Encode (stringify v) =
    utf8EncodeList (stringify v).data from rfl]
  rw [utf8_roundtrip]
  simp only [stringMk_data]
  exact jsonParse_stringify v

theorem natToDigitsRev_17 : natToDigitsRev 17 = [digitChar 7, digitChar 1] := by
  rw [natToDigitsRev]
  norm_num
  rw [natToDigitsRev]
  norm_num
  rw [natToDigitsRev]
  norm_num

theorem intPrint_17 : intPrint 17 = ['1', '7'] := by
  rw [show intPrint 17 = natPrint (17 : Int).natAbs from by
    unfold intPrint; norm_num]
  rw [show ((17 : Int).natAbs) = 17 from by norm_num]
  unfold natPrint
  rw [if_neg (by norm_num : ¬ (17 = 0))]
  rw [natToDigitsRev_17]
  decide

theorem stringify_num17 : stringify (Json.num 17) = "17" := by
  simp only [stringify, stringifyVal]
  rw [intPrint_17]

theorem encryptData_num17 : encryptData (Json.num 17) = "WlY=" := by
  unfold encryptData
  rw [stringify_num17]
  rfl

/-- C2 counterexample: the string "S1BZ" is not produced by `encryptData`
for any value, yet `decryptData` returns 17 for it (it decodes to the
JSON text " 17", which no canonical stringify emits but `JSON.parse`
accepts), so "decode of a string not produced by encode returns null" is
false. -/
theorem cipher_counterexample :
    decryptData "S1BZ" = some (.num 17) ∧
    ∀ v : Json, encryptData v ≠ "S1BZ" := by
  constructor
  · rfl
  · intro v h
    have h2 := decrypt_encrypt v
    rw [h] at h2
    have hx : decryptData "S1BZ" = some (Json.num 17) := rfl
    rw [hx] at h2
    injection h2 with h3
    subst h3
    rw [encryptData_num17] at h
    exact absurd h (by decide)

/-- C2 (amended): the cipher codec round-trips every JSON value —
`decryptData (encryptData v) = some v` — and decoding is a total function
that yields `none` (the `null` of the caught-exception path) instead of
throwing; however a string outside the image of `encryptData` may still
decode to a value rather than failing. -/
theorem cipher_roundtrip_amended :
    (∀ v : Json, decryptData (encryptData v) = some v) ∧
    (∃ s : String, (∀ v : Json, encryptData v ≠ s) ∧
      decryptData s ≠ none) := by
  refine ⟨decrypt_encrypt, "S1BZ", ?_, by intro h; cases h⟩
  intro v h
  have h2 := decrypt_encrypt v
  rw [h] at h2
  have hx : decryptData "S1BZ" = some (Json.num 17) := rfl
  rw [hx] at h2
  injection h2 with h3
  subst h3
  rw [encryptData_num17] at h
  exact absurd h (by decide)

theorem jGet_nonobj_falsy (j : Json) (k : String)
    (h : jsFalsy (jGet j k) = false) : jsFalsy (some j) = false := by
  cases j with
  | obj l => rfl
  | null => simp [jGet, jsFalsy] at h
  | bool b => simp [jGet, jsFalsy] at h
  | num n => simp [jGet, jsFalsy] at h
  | str s => simp [jGet, jsFalsy] at h
  | arr l => simp [jGet, jsFalsy] at h

/-- C1: an importable payload that decodes, has truthy metadata and data
sections, but whose `metadata.userId` is not strictly equal to the
authenticated profile's id, fails with the ownership-mismatch outcome and
leaves all three ledger collections unchanged. -/
theorem importData_ownership (content : String) (uid : String)
    (st : ImportState) (j : Json)
    (hdec : decryptData content = some j)
    (hmd : jsFalsy (jGet j "metadata") = false)
    (hdata : jsFalsy (jGet j "data") = false)
    (hown : strictEqUser ((jGet j "metadata").bind (fun md => jGet md "userId"))
      (some uid) = false) :
    importData content (some uid) st = (.ownershipMismatch, st) := by
  have hj : jsFalsy (some j) = false := jGet_nonobj_falsy j "metadata" hmd
  simp [importData, hdec, hj, hmd, hdata, hown]

theorem importData_ownership_witness :
    importData (encryptData payloadP1) (some "u1") stJ =
      (.ownershipMismatch, stJ) :=
  importData_ownership _ "u1" stJ payloadP1 (decrypt_encrypt payloadP1)
    rfl rfl rfl

/-- C5 counterexample: a payload accepted by importData whose
`data.expenses` is not an array leaves the previous (non-empty) expenses
collection in place — it does not become empty. -/
theorem importData_counterexample :
    (jGet payloadP2 "data").bind (fun d => jGet d "expenses") =
      some (.num 5) ∧
    importData (encryptData payloadP2) (some "u1") stJ =
      (.success, ⟨stJ.expenses, [.bool true], []⟩) ∧
    stJ.expenses ≠ [] := by
  refine ⟨rfl, ?_, by simp [stJ]⟩
  simp [importData, decrypt_encrypt payloadP2]
  rfl

theorem jArrOr_not_arr (o : Option Json) (d : List Json)
    (h : ∀ l, o ≠ some (.arr l)) : jArrOr o d = d := by
  rcases o with _ | w
  · rfl
  · cases w with
    | arr l => exact absurd rfl (h l)
    | null => rfl
    | bool b => rfl
    | num n => rfl
    | str s => rfl
    | obj l => rfl

/-- C5 (amended): an accepted payload (decodes, truthy metadata and data,
matching owner) reports success and replaces each ledger collection
wholesale by the corresponding payload array; a data field that is not an
array leaves the corresponding existing collection unchanged (it is not
emptied and not an error). -/
theorem importData_success (content : String) (uid : String)
    (st : ImportState) (j : Json)
    (hdec : decryptData content = some j)
    (hmd : jsFalsy (jGet j "metadata") = false)
    (hdata : jsFalsy (jGet j "data") = false)
    (hown : strictEqUser ((jGet j "metadata").bind (fun md => jGet md "userId"))
      (some uid) = true) :
    (importData content (some uid) st).1 = .success ∧
    (∀ l, (jGet j "data").bind (fun d => jGet d "expenses") = some (.arr l) →
      (importData content (some uid) st).2.expenses = l) ∧
    ((∀ l, (jGet j "data").bind (fun d => jGet d "expenses") ≠
        some (.arr l)) →
      (importData content (some uid) st).2.expenses = st.expenses) ∧
    (∀ l, (jGet j "data").bind (fun d => jGet d "incomes") = some (.arr l) →
      (importData content (some uid) st).2.incomes = l) ∧
    ((∀ l, (jGet j "data").bind (fun d => jGet d "incomes") ≠
        some (.arr l)) →
      (importData content (some uid) st).2.incomes = st.incomes) ∧
    (∀ l, (jGet j "data").bind (fun d => jGet d "budgets") = some (.arr l) →
      (importData content (some uid) st).2.budgets = l) ∧
    ((∀ l, (jGet j "data").bind (fun d => jGet d "budgets") ≠
        some (.arr l)) →
      (importData content (some uid) st).2.budgets = st.budgets) := by
  have hj : jsFalsy (some j) = false := jGet_nonobj_falsy j "metadata" hmd
  have hcomp : importData content (some uid) st = (.success,
      ⟨jArrOr ((jGet j "data").bind (fun d => jGet d "expenses")) st.expenses,
       jArrOr ((jGet j "data").bind (fun d => jGet d "incomes")) st.incomes,
       jArrOr ((jGet j "data").bind (fun d => jGet d "budgets"))
         st.budgets⟩) := by
    simp [importData, hdec, hj, hmd, hdata, hown]
  rw [hcomp]
  refine ⟨rfl, ?_, ?_, ?_, ?_, ?_, ?_⟩
  · intro l hl
    simp [hl, jArrOr]
  · intro hl
    exact jArrOr_not_arr _ _ hl
  · intro l hl
    simp [hl, jArrOr]
  · intro hl
    exact jArrOr_not_arr _ _ hl
  · intro l hl
    simp [hl, jArrOr]
  · intro hl
    exact jArrOr_not_arr _ _ hl

theorem importData_success_witness :
    (importData (encryptData payloadP3) (some "u1") stJ).1 = .success ∧
    (∀ l, (jGet payloadP3 "data").bind (fun d => jGet d "expenses") =
        some (.arr l) →
      (importData (encryptData payloadP3) (some "u1") stJ).2.expenses = l) ∧
    ((∀ l, (jGet payloadP3 "data").bind (fun d => jGet d "expenses") ≠
        some (.arr l)) →
      (importData (encryptData payloadP3) (some "u1") stJ).2.expenses =
        stJ.expenses) ∧
    (∀ l, (jGet payloadP3 "data").bind (fun d => jGet d "incomes") =
        some (.arr l) →
      (importData (encryptData payloadP3) (some "u1") stJ).2.incomes = l) ∧
    ((∀ l, (jGet payloadP3 "data").bind (fun d => jGet d "incomes") ≠
        some (.arr l)) →
      (importData (encryptData payloadP3) (some "u1") stJ).2.incomes =
        stJ.incomes) ∧
    (∀ l, (jGet payloadP3 "data").bind (fun d => jGet d "budgets") =
        some (.arr l) →
      (importData (encryptData payloadP3) (some "u1") stJ).2.budgets = l) ∧
    ((∀ l, (jGet payloadP3 "data").bind (fun d => jGet d "budgets") ≠
        some (.arr l)) →
      (importData (encryptData payloadP3) (some "u1") stJ).2.budgets =
        stJ.budgets) :=
  importData_success _ "u1" stJ payloadP3 (decrypt_encrypt payloadP3)
    rfl rfl rfl


theorem addIncome_assigns_status_witness :
    ∃ newInc : Income,
      addIncome "n1" 5 "2024-02-01" sampleInput [sampleIncome] =
        newInc :: [sampleIncome] ∧
      newInc.id = "n1" ∧ newInc.createdAt = 5 ∧
      newInc.amount = sampleInput.amount ∧
      newInc.category = sampleInput.category ∧
      newInc.source = sampleInput.source ∧
      newInc.date = sampleInput.date ∧
      newInc.recurrence = sampleInput.recurrence ∧
      newInc.tenantContact = sampleInput.tenantContact ∧
      (newInc.status = .Overdue ↔ sampleInput.date < "2024-02-01") ∧
      (¬ sampleInput.date < "2024-02-01" → newInc.status = .Expected) ∧
      newInc.status ≠ .Received ∧
      ("n1" ∉ [sampleIncome].map Income.id →
        ([sampleIncome].map Income.id).Nodup →
        ((addIncome "n1" 5 "2024-02-01" sampleInput
          [sampleIncome]).map Income.id).Nodup) :=
  addIncome_assigns_status "n1" 5 "2024-02-01" sampleInput [sampleIncome]

theorem loadIncomes_overdue_once_witness :
    (loadIncomes "2024-03-01" [sampleIncome]).1 =
      [sampleIncome].map (reconcileOne "2024-03-01") ∧
    (loadIncomes "2024-03-01"
        ((loadIncomes "2024-03-01" [sampleIncome]).1)).1 =
      (loadIncomes "2024-03-01" [sampleIncome]).1 ∧
    (loadIncomes "2024-03-01"
        ((loadIncomes "2024-03-01" [sampleIncome]).1)).2 = false ∧
    ((loadIncomes "2024-03-01" [sampleIncome]).2 = true ↔
      ∃ inc ∈ [sampleIncome], inc.status = .Expected ∧
        inc.date < "2024-03-01") ∧
    (∀ inc : Income, inc.status = .Expected → inc.date < "2024-03-01" →
      reconcileOne "2024-03-01" inc = { inc with status := .Overdue }) ∧
    (∀ inc : Income, inc.status = .Received →
      reconcileOne "2024-03-01" inc = inc) ∧
    (∀ inc : Income, ¬ inc.date < "2024-03-01" →
      reconcileOne "2024-03-01" inc = inc) :=
  loadIncomes_overdue_once "2024-03-01" [sampleIncome]

end Kanakku
